import Mathlib

/-!
Shallow embedding of the LINE echo-bot "inspiration helper" core
(`src/main.py`): the conversation state store and router
(`handle_text_message`), the expiry sweeper (`check_translation_timeout`),
the content normalizer (`normalize_social_post_data`), the structured
response parsers (`parse_summary_response`, `parse_social_summary_response`,
`parse_translation_request`) and the pattern library (URL finder, social
platform classifier, scrape-command and translate-command patterns).

Python strings are modelled as `List Char` at parsing level and `String` at
interface level; Python `dict` values flowing through the normalizer are
modelled by the inductive `PyVal`; Python exceptions are modelled by
`Option` results; wall-clock time is an `Int`.
-/

namespace EchoBot

/-! ## Character classes (Python `str`/`re` semantics, shallow model) -/

/-- Whitespace recognised by Python `str.strip` and by `\s` in `re`
(string patterns): the ASCII whitespace plus the Unicode space
characters. -/
def pySpace (c : Char) : Bool :=
  let n := c.val.toNat
  n = 32 || n = 9 || n = 10 || n = 13 || n = 11 || n = 12 ||
  (28 ≤ n && n ≤ 31) || n = 0x85 || n = 0xA0 || n = 0x1680 ||
  (0x2000 ≤ n && n ≤ 0x200A) || n = 0x2028 || n = 0x2029 ||
  n = 0x202F || n = 0x205F || n = 0x3000

/-- ASCII decimal digit. The source uses `str.isdigit` and `\d` only on
ASCII numerals, which this models. -/
def pyDigit (c : Char) : Bool := '0' ≤ c && c ≤ '9'

/-- Word character for `\w` in Python Unicode patterns: ASCII
alphanumerics, the underscore, and (as the fragment of Unicode exercised
by this program) the CJK unified ideographs. -/
def pyWord (c : Char) : Bool :=
  ('a' ≤ c && c ≤ 'z') || ('A' ≤ c && c ≤ 'Z') || pyDigit c || c = '_' ||
  (0x4E00 ≤ c.val.toNat && c.val.toNat ≤ 0x9FFF)

/-- Hexadecimal digit, for the `%[\da-fA-F]{2}` escape in the URL
pattern. -/
def pyHex (c : Char) : Bool :=
  pyDigit c || ('a' ≤ c && c ≤ 'f') || ('A' ≤ c && c ≤ 'F')

/-- Leading/trailing whitespace removal: Python `str.strip()`. -/
def pyStrip (l : List Char) : List Char :=
  ((l.dropWhile pySpace).reverse.dropWhile pySpace).reverse

/-- Python `str.strip()` on a `String`. -/
def strip (s : String) : String := String.mk (pyStrip s.toList)

/-! ## Python values and dictionaries (for the normalizer) -/

/-- The Python values that flow through the scrape-payload field bags:
integers, strings, nested dictionaries, and `None` (also standing for an
absent key returned by `dict.get`). -/
inductive PyVal where
  | vInt (n : Int)
  | vStr (s : String)
  | vDict (d : List (String × PyVal))
  | vNone

/-- Python truthiness of a `PyVal`: `0`, `""`, `{}` and `None` are
falsy. -/
def pyTruthy : PyVal → Bool
  | .vInt n => n != 0
  | .vStr s => s != ""
  | .vDict d => !d.isEmpty
  | .vNone => false

/-- `dict.get(key, default)`: the value stored under the first (unique)
matching key, the default when absent. -/
def pyGetD (d : List (String × PyVal)) (k : String) (dflt : PyVal) : PyVal :=
  match d.find? (fun e => e.1 = k) with
  | some e => e.2
  | none => dflt

/-- `dict.get(key)`: `None` when absent. -/
def pyGet (d : List (String × PyVal)) (k : String) : PyVal :=
  pyGetD d k .vNone

/-- Python `int(x)` as a fallible coercion: an `int` is returned as is; a
string is accepted when, after stripping whitespace and an optional sign,
it is a nonempty run of decimal digits; everything else raises
(`ValueError`/`TypeError`), modelled as `none`. -/
def pyIntOf : PyVal → Option Int
  | .vInt n => some n
  | .vStr s =>
    let t := pyStrip s.toList
    let (sign, digits) :=
      match t with
      | '-' :: r => ((-1 : Int), r)
      | '+' :: r => ((1 : Int), r)
      | r => ((1 : Int), r)
    if digits ≠ [] && digits.all pyDigit then
      some (sign * (digits.foldl (fun acc c => 10 * acc + (c.val.toNat - 48)) (0 : Nat) : Nat))
    else none
  | .vDict _ => none
  | .vNone => none

/-- Result of `or`-chaining a list of Python values with a final default:
the first truthy value, else the default (Python `a or b or ... or d`). -/
def firstTruthy (vs : List PyVal) (dflt : PyVal) : PyVal :=
  match vs with
  | [] => dflt
  | v :: rest => if pyTruthy v then v else firstTruthy rest dflt

/-! ## Content normalizer (`normalize_social_post_data`) -/

/-- The canonical post record produced by the normalizer. `username` and
`text` keep their raw `PyVal` (the source does not coerce them), the
interaction counts are integers. -/
structure CanonicalPost where
  username : PyVal
  text : PyVal
  likes : Int
  comments : Int
  shares : Int

/-- The all-default canonical post returned for an unrecognized platform
tag. -/
def defaultPost : CanonicalPost :=
  ⟨.vStr "未知", .vStr "", 0, 0, 0⟩

/-- The numeric coercion step `int(x) if x else 0` applied to the result
of an alias `or`-chain: a falsy chain result yields `0`, a truthy one is
passed to `int`, which can raise (`none`). -/
def coerceCount (v : PyVal) : Option Int :=
  if pyTruthy v then pyIntOf v else some 0

/-- The nested `user` dictionary read guarded by `isinstance(..., dict)`
in the Facebook branch (`{}` when absent or not a dict). -/
def nestedDict (bag : List (String × PyVal)) (k : String) : List (String × PyVal) :=
  match pyGet bag k with
  | .vDict d => d
  | _ => []

/-- `normalize_social_post_data(post_data, platform)` from `src/main.py`
(lines 479-542). For `"facebook"` and `"threads"` each canonical field is
an `or`-chain over provider aliases; numeric fields go through
`int(...)`, which raises on non-numeric truthy content (result `none`).
The Threads `username` chain calls `.get` on `post_data.get("author", {})`,
which raises when a truthy non-dict `author` is present. Any other
platform yields the all-default record. -/
def normalize_social_post_data (bag : List (String × PyVal)) (platform : String) :
    Option CanonicalPost :=
  if platform = "facebook" then
    let userDict := nestedDict bag "user"
    let username := firstTruthy
      [pyGet bag "pageName", pyGet bag "userName", pyGet userDict "name",
       pyGet bag "name"] (.vStr "未知")
    let text := firstTruthy
      [pyGet bag "text", pyGet bag "postText", pyGet bag "message",
       pyGet bag "description"] (.vStr "")
    let reactionsDict := nestedDict bag "reactions"
    let likesV := firstTruthy
      [pyGet bag "likes", pyGet bag "likesCount", pyGet bag "reactionsCount",
       pyGet reactionsDict "count"] (.vInt 0)
    let commentsV := firstTruthy
      [pyGet bag "comments", pyGet bag "commentsCount", pyGet bag "commentCount"]
      (.vInt 0)
    let sharesV := firstTruthy
      [pyGet bag "shares", pyGet bag "sharesCount", pyGet bag "shareCount"]
      (.vInt 0)
    match coerceCount likesV, coerceCount commentsV, coerceCount sharesV with
    | some l, some c, some sh => some ⟨username, text, l, c, sh⟩
    | _, _, _ => none
  else if platform = "threads" then
    let usernameOpt : Option PyVal :=
      if pyTruthy (pyGet bag "ownerUsername") then some (pyGet bag "ownerUsername")
      else
        match pyGetD bag "author" (.vDict []) with
        | .vDict d => some (firstTruthy [pyGet d "username"] (.vStr "未知"))
        | _ => none
    let text := firstTruthy [pyGet bag "text", pyGet bag "caption"] (.vStr "")
    let likesV := firstTruthy [pyGet bag "likeCount", pyGet bag "likesCount"] (.vInt 0)
    let commentsV := firstTruthy [pyGet bag "replyCount", pyGet bag "commentsCount"] (.vInt 0)
    let sharesV := firstTruthy [pyGet bag "repostCount"] (.vInt 0)
    match usernameOpt, pyIntOf likesV, pyIntOf commentsV, pyIntOf sharesV with
    | some u, some l, some c, some sh => some ⟨u, text, l, c, sh⟩
    | _, _, _, _ => none
  else
    some defaultPost

/-! ## Pattern library

Each `re` pattern of the source is embedded as a dedicated matcher over
`List Char`, implementing the backtracking order of the Python engine for
that specific pattern (alternatives tried left to right, greedy
quantifiers longest first, lazy quantifiers shortest first). -/

/-- Consume a literal: if the text starts with the literal, return the
remainder. -/
def dropLit : List Char → List Char → Option (List Char)
  | [], l => some l
  | c :: cs, d :: l => if d = c then dropLit cs l else none
  | _ :: _, [] => none

/-- Ordered alternation with continuation (Boolean): an optional group
`(?:a|b|...)?` tries each alternative in order, running the rest of the
pattern after it, and finally tries the empty match. -/
def tryOpts (opts : List (List Char)) (k : List Char → Bool) (l : List Char) : Bool :=
  match opts with
  | [] => k l
  | o :: rest =>
    (match dropLit o l with
     | some r => k r
     | none => false) || tryOpts rest k l

/-- Ordered alternation with continuation, `Option`-valued result. -/
def tryOptsO {α : Type} (opts : List (List Char)) (k : List Char → Option α)
    (l : List Char) : Option α :=
  match opts with
  | [] => k l
  | o :: rest =>
    match (match dropLit o l with
           | some r => k r
           | none => none) with
    | some res => some res
    | none => tryOptsO rest k l

/-- The scheme part `https?://`: literal `http`, greedy optional `s`
(with fallback), literal `://`. -/
def dropScheme (l : List Char) : Option (List Char) :=
  match dropLit "http".toList l with
  | none => none
  | some r =>
    match r with
    | 's' :: r2 =>
      (match dropLit "://".toList r2 with
       | some r3 => some r3
       | none => dropLit "://".toList r)
    | _ => dropLit "://".toList r

/-- ASCII lower-casing, for the `re.IGNORECASE` flag and `str.lower`. -/
def lowerAscii (c : Char) : Char :=
  if 'A' ≤ c && c ≤ 'Z' then Char.ofNat (c.val.toNat + 32) else c

/-- Case-insensitive `https?://` (the scrape command pattern carries
`re.IGNORECASE`). -/
def dropSchemeCI (l : List Char) : Option (List Char) :=
  let lit (s : String) (m : List Char) : Option (List Char) :=
    dropLit s.toList (m.map lowerAscii) |>.map (fun r => m.drop (m.length - r.length))
  match lit "http" l with
  | none => none
  | some r =>
    match r with
    | c :: r2 =>
      if lowerAscii c = 's' then
        (match lit "://" r2 with
         | some r3 => some r3
         | none => lit "://" r)
      else lit "://" r
    | [] => lit "://" r

/-- Greedy `(?:[-\w.]|(?:%[\da-fA-F]{2}))+`-style host run of the URL
pattern: returns the consumed run and the remainder. -/
def hostTake : List Char → List Char × List Char
  | [] => ([], [])
  | c :: rest =>
    if c = '-' || pyWord c || c = '.' then
      let p := hostTake rest
      (c :: p.1, p.2)
    else if c = '%' then
      match rest with
      | h1 :: h2 :: rest2 =>
        if pyHex h1 && pyHex h2 then
          let p := hostTake rest2
          (c :: h1 :: h2 :: p.1, p.2)
        else ([], c :: rest)
      | _ => ([], c :: rest)
    else ([], c :: rest)

/-- Characters of the URL pattern's path part `[/\w\.-]*`. -/
def pathChar (c : Char) : Bool := c = '/' || pyWord c || c = '.' || c = '-'

/-- Match the URL pattern
`https?://(?:[-\w.]|(?:%[\da-fA-F]{2}))+[/\w\.-]*(?:\?[^\s]*)?`
anchored at the start of the text, returning the matched text. -/
def urlMatchAt (l : List Char) : Option (List Char) :=
  match dropScheme l with
  | none => none
  | some r =>
    let host := hostTake r
    if host.1.isEmpty then none
    else
      let pathRun := host.2.takeWhile pathChar
      let r2 := host.2.dropWhile pathChar
      let query : List Char :=
        match r2 with
        | '?' :: q => '?' :: q.takeWhile (fun c => !pySpace c)
        | _ => []
      some (l.take (l.length - r.length) ++ host.1 ++ pathRun ++ query)

/-- `re.search` for the URL pattern: leftmost match. -/
def urlSearch : List Char → Option (List Char)
  | [] => none
  | c :: rest =>
    match urlMatchAt (c :: rest) with
    | some m => some m
    | none => urlSearch rest

/-- `extract_url`: first URL in the text, if any. -/
def extract_url (s : String) : Option String := (urlSearch s.toList).map String.mk

/-- Greedy `[\w.]+`-style run: returns the run and the remainder. -/
def wordDotRun (l : List Char) : List Char × List Char :=
  (l.takeWhile (fun c => pyWord c || c = '.'), l.dropWhile (fun c => pyWord c || c = '.'))

/-- The alternation of post-type keywords in FACEBOOK_POST_PATTERN. -/
def fbKeywords : List (List Char) :=
  ["posts".toList, "videos".toList, "photos".toList, "watch".toList,
   "story.php".toList, "permalink.php".toList, "reel".toList, "share".toList]

/-- The part of FACEBOOK_POST_PATTERN after `facebook.com/`:
`(?:[\w.]+/)?(?:posts|videos|photos|watch|story\.php|permalink\.php|reel|share)[\w/?=&.-]*`
(the trailing star always succeeds, so only the keyword has to match). -/
def fbPostAfterSlash (l : List Char) : Bool :=
  let kwOk (m : List Char) : Bool := fbKeywords.any (fun kw => (dropLit kw m).isSome)
  let withGroup : Bool :=
    let p := wordDotRun l
    if p.1.isEmpty then false
    else
      match p.2 with
      | '/' :: r2 => kwOk r2
      | _ => false
  withGroup || kwOk l

/-- FACEBOOK_POST_PATTERN as an anchored Boolean matcher. -/
def fbPostMatch (url : List Char) : Bool :=
  match dropScheme url with
  | none => false
  | some r =>
    tryOpts ["www.".toList, "m.".toList, "web.".toList]
      (fun r2 =>
        match dropLit "facebook.com/".toList r2 with
        | some r3 => fbPostAfterSlash r3
        | none => false) r

/-- The `$` anchor of a pattern without MULTILINE: matches at the end of
the text or just before a single final newline. -/
def endDollar : List Char → Bool
  | [] => true
  | ['\n'] => true
  | _ => false

/-- `.*$` on the remainder (no DOTALL): everything up to the end, allowing
one final newline after the `.*` part. -/
def nlFreeTail (q : List Char) : Bool :=
  q.all (fun c => c != '\n') ||
  (match q.reverse with
   | '\n' :: r => r.all (fun c => c != '\n')
   | _ => false)

/-- The tail `/?(?:\?.*)?$` of FACEBOOK_PAGE_PATTERN. -/
def fbPageTail (r1 : List Char) : Bool :=
  let qtail (r : List Char) : Bool :=
    endDollar r ||
    (match r with
     | '?' :: q => nlFreeTail q
     | _ => false)
  match r1 with
  | '/' :: r2 => qtail r2
  | _ => qtail r1

/-- FACEBOOK_PAGE_PATTERN
`https?://(?:www\.|m\.|web\.)?facebook\.com/([\w.]+)/?(?:\?.*)?$`
as an anchored Boolean matcher. -/
def fbPageMatch (url : List Char) : Bool :=
  match dropScheme url with
  | none => false
  | some r =>
    tryOpts ["www.".toList, "m.".toList, "web.".toList]
      (fun r2 =>
        match dropLit "facebook.com/".toList r2 with
        | some r3 =>
          let p := wordDotRun r3
          !p.1.isEmpty && fbPageTail p.2
        | none => false) r

/-- THREADS_PATTERN `https?://(?:www\.)?threads\.net/@[\w.]+/post/[\w]+`
as an anchored Boolean matcher. -/
def threadsMatch (url : List Char) : Bool :=
  match dropScheme url with
  | none => false
  | some r =>
    tryOpts ["www.".toList]
      (fun r2 =>
        match dropLit "threads.net/@".toList r2 with
        | some r3 =>
          let p := wordDotRun r3
          if p.1.isEmpty then false
          else
            match dropLit "/post/".toList p.2 with
            | some r5 => !(r5.takeWhile pyWord).isEmpty
            | none => false
        | none => false) r

/-- `detect_social_platform` (src/main.py lines 243-255). -/
def detect_social_platform (url : String) : Option String × String :=
  if fbPostMatch url.toList then (some "facebook", "post")
  else if fbPageMatch url.toList then (some "facebook", "page")
  else if threadsMatch url.toList then (some "threads", "post")
  else (none, "")

/-- Substring membership, Python's `in` on strings. -/
def containsSub (p : List Char) : List Char → Bool
  | [] => p.isEmpty
  | c :: rest => p.isPrefixOf (c :: rest) || containsSub p rest

/-- The Google-Maps URL fragments checked by the router. -/
def mapsFragments : List String :=
  ["maps.google.com", "google.com/maps", "goo.gl/maps",
   "maps.app.goo.gl", "/maps/", "maps.app"]

/-- The router's `is_google_maps` test: any fragment occurs in the
lower-cased URL. -/
def isGoogleMapsUrl (url : String) : Bool :=
  mapsFragments.any (fun p => containsSub p.toList (url.toList.map lowerAscii))

/-- The tail of SCRAPE_MULTI_PATTERN after the verb:
`\s*(\d+)\s*篇\s*(https?://\S+)`; returns (digit group, url group). -/
def scrapeMultiTail (r2 : List Char) : Option (List Char × List Char) :=
  let r3 := r2.dropWhile pySpace
  let ds := r3.takeWhile pyDigit
  let r4 := r3.dropWhile pyDigit
  if ds.isEmpty then none
  else
    let r5 := r4.dropWhile pySpace
    match r5 with
    | '篇' :: r6 =>
      let r7 := r6.dropWhile pySpace
      match dropSchemeCI r7 with
      | some r8 =>
        let run := r8.takeWhile (fun c => !pySpace c)
        if run.isEmpty then none
        else some (ds, r7.take (r7.length - r8.length) ++ run)
      | none => none
    | _ => none

/-- SCRAPE_MULTI_PATTERN `^(?:幫我)?爬取?\s*(\d+)\s*篇\s*(https?://\S+)`
(IGNORECASE): the optional `幫我`, the verb `爬` with optional `取`, then
the tail. -/
def scrapeMultiCore (l : List Char) : Option (List Char × List Char) :=
  match l with
  | [] => none
  | a :: r =>
    if a = '爬' then
      match r with
      | b :: r2 =>
        if b = '取' then
          match scrapeMultiTail r2 with
          | some res => some res
          | none => scrapeMultiTail r
        else scrapeMultiTail r
      | [] => scrapeMultiTail r
    else none

/-- SCRAPE_MULTI_PATTERN applied with `re.match` (anchored). -/
def scrapeMultiMatch (t : List Char) : Option (List Char × List Char) :=
  match dropLit "幫我".toList t with
  | some r =>
    (match scrapeMultiCore r with
     | some res => some res
     | none => scrapeMultiCore t)
  | none => scrapeMultiCore t

/-! ## TRANSLATE_PATTERN
`^(?:幫我|請|請幫我)?翻譯成?\s*(.+?)\s*[：:\s]\s*(.+)$` with DOTALL. -/

/-- `\s*(.+)$` with DOTALL on the remainder: greedy whitespace first,
then a nonempty greedy capture; when the remainder is all whitespace the
engine backtracks one character into the capture. -/
def innerTail (r : List Char) : Option (List Char) :=
  let d := r.dropWhile pySpace
  if d.isEmpty then
    match r.reverse with
    | c :: _ => some [c]
    | [] => none
  else some d

/-- One attempt of `[：:\s]\s*(.+)$` at offset `i` of the remainder
(after the outer `\s*` consumed `i` characters). -/
def sepAttempt (t : List Char) (i : Nat) : Option (List Char) :=
  match t.drop i with
  | c :: rest => if c = '：' || c = ':' || pySpace c then innerTail rest else none
  | [] => none

/-- Backtracking of the outer greedy `\s*` of the separator: offsets from
the longest whitespace run down to zero. -/
def sepTailFrom (t : List Char) : Nat → Option (List Char)
  | 0 => sepAttempt t 0
  | Nat.succ i =>
    match sepAttempt t (i + 1) with
    | some g => some g
    | none => sepTailFrom t i

/-- `\s*[：:\s]\s*(.+)$` on the remainder, returning the second capture
group. -/
def sepTail (t : List Char) : Option (List Char) :=
  sepTailFrom t (t.takeWhile pySpace).length

/-- The lazy group `(.+?)` followed by the separator tail: shortest
nonempty capture whose remainder satisfies the separator. -/
def lazyScan : List Char → List Char → Option (List Char × List Char)
  | _, [] => none
  | acc, c :: r =>
    match sepTail r with
    | some g2 => some (acc ++ [c], g2)
    | none => lazyScan (acc ++ [c]) r

/-- After the literal `翻譯`: the greedy optional `成` (with fallback)
then the lazy capture. -/
def afterFanyi (l : List Char) : Option (List Char × List Char) :=
  match l with
  | a :: r =>
    if a = '成' then
      match lazyScan [] r with
      | some p => some p
      | none => lazyScan [] l
    else lazyScan [] l
  | [] => lazyScan [] l

/-- TRANSLATE_PATTERN with `re.match`: optional politeness marker, the
verb, then capture groups (language token, body). -/
def translateMatch (t : List Char) : Option (List Char × List Char) :=
  tryOptsO ["幫我".toList, "請".toList, "請幫我".toList]
    (fun l =>
      match dropLit "翻譯".toList l with
      | some r => afterFanyi r
      | none => none) t

/-! ## Language lexicon -/

/-- LANGUAGE_MAP from src/main.py (lines 174-234), in source order. -/
def LANGUAGE_MAP : List (String × String) :=
  [("英文", "English"), ("英語", "English"),
   ("日文", "Japanese"), ("日語", "Japanese"),
   ("韓文", "Korean"), ("韓語", "Korean"),
   ("中文", "Traditional Chinese"), ("繁體中文", "Traditional Chinese"),
   ("繁中", "Traditional Chinese"), ("簡體中文", "Simplified Chinese"),
   ("簡中", "Simplified Chinese"),
   ("越南文", "Vietnamese"), ("越南語", "Vietnamese"),
   ("泰文", "Thai"), ("泰語", "Thai"),
   ("印尼文", "Indonesian"), ("印尼語", "Indonesian"),
   ("馬來文", "Malay"), ("馬來語", "Malay"),
   ("菲律賓文", "Filipino"), ("菲律賓語", "Filipino"),
   ("緬甸文", "Burmese"), ("緬甸語", "Burmese"),
   ("柬埔寨文", "Khmer"), ("柬埔寨語", "Khmer"), ("高棉文", "Khmer"),
   ("寮文", "Lao"), ("寮語", "Lao"), ("寮國文", "Lao"),
   ("法文", "French"), ("法語", "French"),
   ("德文", "German"), ("德語", "German"),
   ("西班牙文", "Spanish"), ("西班牙語", "Spanish"),
   ("葡萄牙文", "Portuguese"), ("葡萄牙語", "Portuguese"),
   ("義大利文", "Italian"), ("義大利語", "Italian"),
   ("俄文", "Russian"), ("俄語", "Russian"),
   ("荷蘭文", "Dutch"), ("荷蘭語", "Dutch"),
   ("阿拉伯文", "Arabic"), ("阿拉伯語", "Arabic"),
   ("印度文", "Hindi"), ("印地語", "Hindi"),
   ("土耳其文", "Turkish"), ("土耳其語", "Turkish"),
   ("波蘭文", "Polish"), ("波蘭語", "Polish"),
   ("瑞典文", "Swedish"), ("瑞典語", "Swedish"),
   ("希臘文", "Greek"), ("希臘語", "Greek")]

/-- `LANGUAGE_MAP.get(label)`: first matching key. -/
def langGet (label : String) : Option String :=
  (LANGUAGE_MAP.find? (fun e => e.1 = label)).map (fun e => e.2)

/-- `parse_translation_request` (src/main.py lines 1042-1058): match
TRANSLATE_PATTERN against the stripped text, strip both groups, resolve
the language token through the lexicon with pass-through fallback. -/
def parse_translation_request (text : String) : Option (String × String) :=
  match translateMatch (pyStrip text.toList) with
  | none => none
  | some (g1, g2) =>
    let langInput := String.mk (pyStrip g1)
    let body := String.mk (pyStrip g2)
    let target :=
      match langGet langInput with
      | some tl => tl
      | none => langInput
    some (target, body)

/-! ## Structured-response parsers: the keyword field

The keyword extraction of `parse_summary_response` (src/main.py lines
915-924) and of `parse_social_summary_response` (lines 598-603): a
`re.search` for an anchored label, a lazy capture up to a terminator,
then split / trim / filter. -/

/-- Terminator `(?:\n\n|🎯|$)` of the summary keyword capture. -/
def termSummary (q : List Char) : Bool :=
  match q with
  | '\n' :: '\n' :: _ => true
  | '🎯' :: _ => true
  | _ => endDollar q

/-- Terminator `(?:\n\n|📊|$)` of the social keyword capture. -/
def termSocialKw (q : List Char) : Bool :=
  match q with
  | '\n' :: '\n' :: _ => true
  | '📊' :: _ => true
  | _ => endDollar q

/-- The lazy capture `(.+?)` before a terminator (DOTALL): shortest
nonempty capture after which the terminator matches. -/
def lazyCapture (term : List Char → Bool) : List Char → List Char → Option (List Char)
  | _, [] => none
  | acc, c :: rest =>
    if term rest then some (acc ++ [c]) else lazyCapture term (acc ++ [c]) rest

/-- Backtracking of the greedy `\s*` before the lazy capture: offsets from
the longest whitespace run down to zero. -/
def wsLazyFrom (term : List Char → Bool) (r : List Char) : Nat → Option (List Char)
  | 0 => lazyCapture term [] r
  | Nat.succ i =>
    match lazyCapture term [] (r.drop (i + 1)) with
    | some g => some g
    | none => wsLazyFrom term r i

/-- `\s*(.+?)TERM` on the remainder after the label's colon. -/
def wsLazyCapture (term : List Char → Bool) (r : List Char) : Option (List Char) :=
  wsLazyFrom term r (r.takeWhile pySpace).length

/-- First literal of an ordered alternation that matches, returning the
remainder. -/
def tryLits (ls : List (List Char)) (l : List Char) : Option (List Char) :=
  match ls with
  | [] => none
  | a :: rest =>
    match dropLit a l with
    | some r => some r
    | none => tryLits rest l

/-- One anchored attempt of `ANCHOR\s*LABEL[：:]\s*(.+?)TERM` at the given
position. -/
def kwSectionAt (anchors : List Char) (labels : List (List Char))
    (term : List Char → Bool) (l : List Char) : Option (List Char) :=
  match l with
  | c :: rest =>
    if anchors.contains c then
      let r1 := rest.dropWhile pySpace
      match tryLits labels r1 with
      | some r2 =>
        (match r2 with
         | c2 :: r3 => if c2 = '：' || c2 = ':' then wsLazyCapture term r3 else none
         | [] => none)
      | none => none
    else none
  | [] => none

/-- `re.search`: leftmost position at which the keyword-section pattern
matches. -/
def kwSearch (anchors : List Char) (labels : List (List Char))
    (term : List Char → Bool) : List Char → Option (List Char)
  | [] => none
  | c :: rest =>
    match kwSectionAt anchors labels term (c :: rest) with
    | some g => some g
    | none => kwSearch anchors labels term rest

/-- The delimiter class `[、,，]` used by `re.split` in both parsers. -/
def kwDelim (c : Char) : Bool := c = '、' || c = ',' || c = '，'

/-- `re.split(r'[、,，]', text)`: segments between delimiter occurrences,
empty segments kept. -/
def splitKw : List Char → List (List Char)
  | [] => [[]]
  | c :: r =>
    if kwDelim c then [] :: splitKw r
    else
      match splitKw r with
      | s :: ss => (c :: s) :: ss
      | [] => [[c]]

/-- The comprehension `[kw.strip() for kw in keywords if kw.strip() and
len(kw.strip()) < 50]`. -/
def keywordClean (parts : List (List Char)) : List String :=
  ((parts.map pyStrip).filter (fun w => !w.isEmpty && w.length < 50)).map String.mk

/-- The keyword field of `parse_summary_response`: search
`[🔑💡]\s*關鍵(?:字|資訊)[：:]\s*(.+?)(?:\n\n|🎯|$)` (DOTALL), strip the
capture, replace newlines by `、`, split on `[、,，]`, trim and filter.
Empty when no keyword section is found. -/
def parse_summary_keywords (response : String) : List String :=
  match kwSearch ['🔑', '💡'] ["關鍵字".toList, "關鍵資訊".toList] termSummary
      response.toList with
  | none => []
  | some cap =>
    let t1 := pyStrip cap
    let t2 := t1.map (fun c => if c = '\n' then '、' else c)
    keywordClean (splitKw t2)

/-- The keyword field of `parse_social_summary_response`: search
`🔑\s*關鍵字[：:]\s*(.+?)(?:\n\n|📊|$)` (DOTALL), strip the capture, split
on `[、,，]`, trim and filter. Empty when no keyword section is found. -/
def parse_social_keywords (response : String) : List String :=
  match kwSearch ['🔑'] ["關鍵字".toList] termSocialKw response.toList with
  | none => []
  | some cap => keywordClean (splitKw (pyStrip cap))

/-! ## Conversation state store -/

/-- A stored per-user session: the mode tag, the mode-specific payload
fields, and the entry timestamp. Every creation site of the source sets
`entered_at`; payload fields absent for a mode stay `none`. -/
structure Session where
  mode : String
  target_language : Option String := none
  url : Option String := none
  platform : Option String := none
  entered_at : Int
  deriving Repr, DecidableEq

/-- The `user_states` dictionary: an insertion-ordered association list
keyed by user id. -/
abbrev Store := List (String × Session)

/-- Dictionary lookup (`user_states.get(uid)` / `uid in user_states`). -/
def storeGet (st : Store) (uid : String) : Option Session :=
  (st.find? (fun e => e.1 = uid)).map (fun e => e.2)

/-- Dictionary write `user_states[uid] = s`: replace in place when the
key exists, else append. -/
def storeSet : Store → String → Session → Store
  | [], uid, s => [(uid, s)]
  | e :: rest, uid, s =>
    if e.1 = uid then (uid, s) :: rest else e :: storeSet rest uid s

/-- Dictionary delete `del user_states[uid]` (also used for the guarded
`if uid in user_states: del ...`, a no-op when the key is absent). -/
def storeDel (st : Store) (uid : String) : Store :=
  st.filter (fun e => e.1 != uid)

/-! ## Expiry sweeper (`check_translation_timeout`, one pass) -/

/-- The session timeout, 5 minutes in seconds. -/
def TRANSLATION_MODE_TIMEOUT : Int := 300

/-- The sweep collection condition of src/main.py lines 91-94: mode is
one of the two translation modes and the age reached the timeout. -/
def sweepEvict (now : Int) (s : Session) : Bool :=
  (s.mode == "translate_waiting" || s.mode == "translate_select_language") &&
  decide (TRANSLATION_MODE_TIMEOUT ≤ now - s.entered_at)

/-- Phase one of a sweep pass: the `users_to_remove` list. -/
def collectTimedOut (now : Int) : Store → List String
  | [] => []
  | e :: rest =>
    if sweepEvict now e.2 then e.1 :: collectTimedOut now rest
    else collectTimedOut now rest

/-- Phase two, one user: `if user_id in user_states: del ...` followed by
the one-shot expiry notification. -/
def sweepRemove (acc : Store × List String) (uid : String) : Store × List String :=
  if (storeGet acc.1 uid).isSome then (storeDel acc.1 uid, acc.2 ++ [uid])
  else acc

/-- One pass of the sweeper: returns the store after the pass and the
list of users notified (one notification per evicted entry, in order). -/
def sweepPass (now : Int) (st : Store) : Store × List String :=
  (collectTimedOut now st).foldl sweepRemove (st, [])

/-! ## Intent classifier / router (`handle_text_message`)

Each early-returning block of the handler becomes a function returning
`some (action, store after)` when it handles the message and `none` when
control falls through to the next block. External collaborators are cut
at the routing decision: the emitted `Action` is the routed
reply/request, `apify` says whether the scraping collaborator is
configured (the only configuration flag that changes routing), and `now`
is the wall-clock time used for refreshed timestamps. -/

/-- The routed action decided for one inbound message. -/
inductive Action where
  | leaveTranslate
  | showLanguageMenu
  | translateInMode (text : String) (lang : Option String)
  | promptContent (label : String)
  | ackCancel
  | translateDirect (lang : String) (body : String)
  | ackCancelScrape
  | scrapeNotConfigured
  | scrape (url : Option String) (platform : Option String) (count : Nat)
  | unsupportedUrl
  | askPostCount
  | analyzeSocialPost (url : String) (platform : String)
  | analyzeMap (url : String)
  | summarizeWebpage (url : String)
  | summarizeFreeText (text : String)
  deriving Repr, DecidableEq

/-- The cancel keyword set `["取消", "離開", "結束", "exit", "cancel"]`. -/
def cancelKeywords : List String := ["取消", "離開", "結束", "exit", "cancel"]

/-- The language-switch keywords accepted while translating. -/
def switchLangKeywords : List String := ["翻譯", "翻譯模式", "換語言", "切換語言"]

/-- The translation-mode trigger keywords. -/
def triggerKeywords : List String := ["翻譯", "翻譯模式"]

/-- An all-ASCII-digit token: the reading of a purely numeric token used
by the clamping claims (Python regex `\d` is modelled by this fragment as
well). Python's `str.isdigit` is wider; see `pyIsDigitFull`. -/
def pyIsDigit (l : List Char) : Bool := !l.isEmpty && l.all pyDigit

/-- `int(text)` for an all-digit string. -/
def digitsToNat (l : List Char) : Nat :=
  l.foldl (fun acc c => 10 * acc + (c.val.toNat - 48)) 0

/-- One character of Python `str.isdigit`, on the fragment this program
can meet: the ASCII decimal digits together with the superscript digits
U+00B9/U+00B2/U+00B3 and U+2070/U+2074-U+2079 and the subscript digits
U+2080-U+2089, which `isdigit` accepts although `int()` rejects them.
Python's full `isdigit` also accepts the other Unicode decimal-digit
blocks; `int()` accepts those too, so they behave like the ASCII case
and stay outside this fragment. -/
def pyDigitFull (c : Char) : Bool :=
  pyDigit c || c = '¹' || c = '²' || c = '³' || c = '⁰' ||
  (0x2074 ≤ c.val.toNat && c.val.toNat ≤ 0x2079) ||
  (0x2080 ≤ c.val.toNat && c.val.toNat ≤ 0x2089)

/-- Python `str.isdigit` (nonempty, all characters digit-like), on the
fragment of `pyDigitFull`. -/
def pyIsDigitFull (l : List Char) : Bool := !l.isEmpty && l.all pyDigitFull

/-- `int(text)` applied to a token that already passed `str.isdigit`: it
succeeds exactly on the decimal digits and raises ValueError (`none`)
when a digit-like non-decimal character (a superscript or subscript
digit) is present — main.py line 1309. -/
def intOfDigitToken (l : List Char) : Option Nat :=
  if l.all pyDigit then some (digitsToNat l) else none

/-- Handler block, lines 1113-1187: the user is in `translate_waiting`. -/
def blockTranslateWaiting (now : Int) (st : Store) (uid text : String) :
    Option (Action × Store) :=
  match storeGet st uid with
  | some s =>
    if s.mode = "translate_waiting" then
      if text ∈ cancelKeywords then some (.leaveTranslate, storeDel st uid)
      else if text ∈ switchLangKeywords then
        some (.showLanguageMenu,
          storeSet st uid ⟨"translate_select_language", none, none, none, now⟩)
      else
        some (.translateInMode text s.target_language,
          storeSet st uid { s with entered_at := now })
    else none
  | none => none

/-- Handler block, lines 1190-1216: the user is picking a language. On a
lexicon miss that is not a cancel keyword the source runs a (dead)
fallback loop over LANGUAGE_MAP and then falls through without replying. -/
def blockSelectLanguage (now : Int) (st : Store) (uid text : String) :
    Option (Action × Store) :=
  match storeGet st uid with
  | some s =>
    if s.mode = "translate_select_language" then
      match langGet text with
      | some code =>
        some (.promptContent text,
          storeSet st uid ⟨"translate_waiting", some code, none, none, now⟩)
      | none =>
        if text ∈ cancelKeywords then none
        else
          match LANGUAGE_MAP.find? (fun e => e.1 = text) with
          | some e =>
            some (.promptContent text,
              storeSet st uid ⟨"translate_waiting", some e.2, none, none, now⟩)
          | none => none
    else none
  | none => none

/-- Handler block, lines 1219-1240: the trigger keywords enter (or
re-enter) language selection. -/
def blockEnterTranslate (now : Int) (st : Store) (uid text : String) :
    Option (Action × Store) :=
  if text ∈ triggerKeywords then
    some (.showLanguageMenu,
      storeSet st uid ⟨"translate_select_language", none, none, none, now⟩)
  else none

/-- Handler block, lines 1243-1252: cancel outside the handled modes
deletes any session and acknowledges. -/
def blockCancel (st : Store) (uid text : String) : Option (Action × Store) :=
  if text ∈ cancelKeywords then some (.ackCancel, storeDel st uid) else none

/-- Handler block, lines 1255-1288: a direct translation command. -/
def blockDirectTranslate (st : Store) (text : String) : Option (Action × Store) :=
  match parse_translation_request text with
  | some (lang, body) => some (.translateDirect lang body, st)
  | none => none

/-- The outcome of a handler block: a routed reply together with the new
store, or an exception escaping the handler (no reply is sent; the store
is as it was when the exception was raised). -/
inductive Outcome where
  | reply (a : Action) (st2 : Store)
  | crash (st2 : Store)
  deriving Repr, DecidableEq

/-- Handler block, lines 1291-1383: the user is in
`scrape_waiting_count`. A non-cancel token passing `str.isdigit` reaches
`min(int(text), 20)` (line 1309) before the session delete (line 1310),
and `int()` raises an unhandled ValueError on digit-like non-decimal
characters such as "²" — the session survives and no reply is sent.
On a decimal token the session is deleted before the configuration
check. A token that is neither cancel nor digit-like falls through. -/
def blockScrapeCount (apify : Bool) (st : Store) (uid text : String) :
    Option Outcome :=
  match storeGet st uid with
  | some s =>
    if s.mode = "scrape_waiting_count" then
      if text ∈ cancelKeywords then some (.reply .ackCancelScrape (storeDel st uid))
      else if pyIsDigitFull text.toList then
        match intOfDigitToken text.toList with
        | none => some (.crash st)
        | some n =>
          let maxPosts := min n 20
          let st2 := storeDel st uid
          if !apify then some (.reply .scrapeNotConfigured st2)
          else some (.reply (.scrape s.url s.platform maxPosts) st2)
      else none
    else none
  | none => none

/-- Handler block, lines 1386-1478: the multi-post scrape command. -/
def blockScrapeMulti (apify : Bool) (st : Store) (text : String) :
    Option (Action × Store) :=
  match scrapeMultiMatch text.toList with
  | some (ds, urlc) =>
    let maxPosts := min (digitsToNat ds) 20
    if !apify then some (.scrapeNotConfigured, st)
    else
      let url := String.mk urlc
      match detect_social_platform url with
      | (some pl, _) => some (.scrape (some url) (some pl) maxPosts, st)
      | (none, _) => some (.unsupportedUrl, st)
  | none => none

/-- Handler block, lines 1481-1634: the message contains a URL. -/
def blockUrl (apify : Bool) (now : Int) (st : Store) (uid text : String) :
    Option (Action × Store) :=
  match extract_url text with
  | some url =>
    some
      (match detect_social_platform url with
       | (some pl, ty) =>
         if !apify then (.scrapeNotConfigured, st)
         else if ty = "page" then
           (.askPostCount,
            storeSet st uid ⟨"scrape_waiting_count", none, some url, some pl, now⟩)
         else (.analyzeSocialPost url pl, st)
       | (none, _) =>
         if isGoogleMapsUrl url then (.analyzeMap url, st)
         else (.summarizeWebpage url, st))
  | none => none

/-- Handler final block, lines 1635-1654: no URL, summarize the text. -/
def blockFreeText (st : Store) (text : String) : Option (Action × Store) :=
  match extract_url text with
  | none => some (.summarizeFreeText text, st)
  | some _ => none

/-- The router: strips the inbound text and runs the handler blocks in
source order; `none` as first component means the handler returned (or
aborted) without emitting anything — this happens exactly when the
scrape-count block raises its unhandled ValueError. -/
def route (apify : Bool) (now : Int) (st : Store) (uid : String)
    (rawText : String) : Option Action × Store :=
  let text := strip rawText
  let step : Option (Option Action × Store) :=
    match blockTranslateWaiting now st uid text with
    | some (a, st2) => some (some a, st2)
    | none =>
      match blockSelectLanguage now st uid text with
      | some (a, st2) => some (some a, st2)
      | none =>
        match blockEnterTranslate now st uid text with
        | some (a, st2) => some (some a, st2)
        | none =>
          match blockCancel st uid text with
          | some (a, st2) => some (some a, st2)
          | none =>
            match blockDirectTranslate st text with
            | some (a, st2) => some (some a, st2)
            | none =>
              match blockScrapeCount apify st uid text with
              | some (.reply a st2) => some (some a, st2)
              | some (.crash st2) => some (none, st2)
              | none =>
                match blockScrapeMulti apify st text with
                | some (a, st2) => some (some a, st2)
                | none =>
                  match blockUrl apify now st uid text with
                  | some (a, st2) => some (some a, st2)
                  | none =>
                    match blockFreeText st text with
                    | some (a, st2) => some (some a, st2)
                    | none => none
  match step with
  | some r => r
  | none => (none, st)

/-! ## Reachable states of the store -/

/-- The mode tags that the source ever stores. -/
def goodMode (m : String) : Prop :=
  m = "translate_waiting" ∨ m = "translate_select_language" ∨ m = "scrape_waiting_count"

/-- The store invariant of the spec: unique keys and no Idle-mode entry
(only the three waiting modes are ever stored). -/
def storeInv (st : Store) : Prop :=
  (st.map Prod.fst).Nodup ∧ ∀ e ∈ st, goodMode e.2.mode

/-- States of the store reachable from the empty initial store by message
routing and sweep passes. -/
inductive Reachable : Store → Prop where
  | init : Reachable []
  | msg : ∀ {st : Store} (apify : Bool) (now : Int) (uid text : String),
      Reachable st → Reachable (route apify now st uid text).2
  | sweep : ∀ {st : Store} (now : Int),
      Reachable st → Reachable (sweepPass now st).1

/-! ## Store lemmas -/

theorem storeGet_cons (e : String × Session) (rest : Store) (u : String) :
    storeGet (e :: rest) u = if e.1 = u then some e.2 else storeGet rest u := by
  by_cases h : e.1 = u
  · simp [storeGet, List.find?_cons_of_pos, h]
  · simp [storeGet, List.find?_cons_of_neg, h]

theorem storeDel_cons (e : String × Session) (rest : Store) (u : String) :
    storeDel (e :: rest) u =
      if e.1 = u then storeDel rest u else e :: storeDel rest u := by
  by_cases h : e.1 = u <;> simp [storeDel, List.filter_cons, h]

theorem storeGet_isSome_iff (st : Store) (u : String) :
    (storeGet st u).isSome ↔ ∃ e ∈ st, e.1 = u := by
  induction st with
  | nil => simp [storeGet]
  | cons e rest ih =>
    rw [storeGet_cons]
    by_cases h : e.1 = u
    · rw [if_pos h]
      simp only [Option.isSome_some, true_iff]
      exact ⟨e, List.mem_cons_self e rest, h⟩
    · rw [if_neg h, ih]
      constructor
      · rintro ⟨x, hx, hxu⟩
        exact ⟨x, List.mem_cons_of_mem _ hx, hxu⟩
      · rintro ⟨x, hx, hxu⟩
        rcases List.mem_cons.mp hx with rfl | hx2
        · exact absurd hxu h
        · exact ⟨x, hx2, hxu⟩

theorem storeGet_del_ne (st : Store) (u v : String) (h : v ≠ u) :
    storeGet (storeDel st u) v = storeGet st v := by
  induction st with
  | nil => rfl
  | cons e rest ih =>
    rw [storeDel_cons, storeGet_cons]
    by_cases he : e.1 = u
    · rw [if_pos he, if_neg (by rw [he]; exact fun hv => h hv.symm), ih]
    · rw [if_neg he, storeGet_cons, ih]

theorem storeGet_del_self (st : Store) (u : String) :
    storeGet (storeDel st u) u = none := by
  induction st with
  | nil => rfl
  | cons e rest ih =>
    rw [storeDel_cons]
    by_cases he : e.1 = u
    · rw [if_pos he]; exact ih
    · rw [if_neg he, storeGet_cons, if_neg he]; exact ih

theorem storeDel_of_absent (st : Store) (u : String) (h : storeGet st u = none) :
    storeDel st u = st := by
  induction st with
  | nil => rfl
  | cons e rest ih =>
    rw [storeGet_cons] at h
    by_cases he : e.1 = u
    · rw [if_pos he] at h; exact absurd h (by simp)
    · rw [if_neg he] at h
      rw [storeDel_cons, if_neg he, ih h]

/-! ## Claim C1: the expiry sweeper -/

/-- The eviction predicate asserted by claim C1: any of the three
non-idle modes (including scrape_waiting_count) whose age reached the
timeout. -/
def claimEvictC1 (now : Int) (s : Session) : Bool :=
  (s.mode == "translate_waiting" || s.mode == "translate_select_language" ||
   s.mode == "scrape_waiting_count") &&
  decide (TRANSLATION_MODE_TIMEOUT ≤ now - s.entered_at)

/-- A stale scrape-mode session: by claim C1 a sweep at age 1000 must
evict it. -/
def cSession : Session :=
  ⟨"scrape_waiting_count", none, some "https://facebook.com/username", some "facebook", 0⟩

/-- Claim C1, counterexample: a `scrape_waiting_count` session of age
1000 ≥ 300 satisfies the claim's eviction predicate, yet a sweep pass
leaves the store unchanged and sends no notification — the sweeper only
collects the two translation modes. -/
theorem claim1_counterexample :
    claimEvictC1 1000 cSession = true ∧
    sweepPass 1000 [("u", cSession)] = ([("u", cSession)], []) := by
  exact ⟨rfl, rfl⟩

theorem collectTimedOut_eq (now : Int) (st : Store) :
    collectTimedOut now st = (st.filter (fun e => sweepEvict now e.2)).map Prod.fst := by
  induction st with
  | nil => rfl
  | cons e rest ih =>
    rw [collectTimedOut, List.filter_cons]
    by_cases h : sweepEvict now e.2
    · simp [h, ih]
    · simp [h, ih]

theorem foldl_storeDel_eq_filter (us : List String) (st : Store) :
    us.foldl (fun s u => storeDel s u) st = st.filter (fun e => decide (e.1 ∉ us)) := by
  induction us generalizing st with
  | nil => simp
  | cons u us ih =>
    rw [List.foldl_cons, ih, storeDel, List.filter_filter]
    apply List.filter_congr
    intro e _
    by_cases h1 : e.1 = u
    · simp [h1]
    · by_cases h2 : e.1 ∈ us <;> simp [h1, h2, bne_iff_ne]

theorem foldl_sweepRemove (us : List String) (st : Store) (ns : List String)
    (hn : us.Nodup) (hp : ∀ u ∈ us, (storeGet st u).isSome) :
    us.foldl sweepRemove (st, ns) = (us.foldl (fun s u => storeDel s u) st, ns ++ us) := by
  induction us generalizing st ns with
  | nil => simp
  | cons u us ih =>
    rw [List.foldl_cons, List.foldl_cons]
    have h1 : (storeGet st u).isSome := hp u (by simp)
    rw [show sweepRemove (st, ns) u = (storeDel st u, ns ++ [u]) by
      simp [sweepRemove, h1]]
    have hp' : ∀ v ∈ us, (storeGet (storeDel st u) v).isSome := by
      intro v hv
      have hvu : v ≠ u := by
        rintro rfl
        exact (List.nodup_cons.mp hn).1 hv
      rw [storeGet_del_ne st u v hvu]
      exact hp v (List.mem_cons_of_mem _ hv)
    rw [ih (storeDel st u) (ns ++ [u]) (List.nodup_cons.mp hn).2 hp']
    simp

/-- Claim C1, amended: a sweep pass at time `now` evicts exactly the
sessions whose mode is `translate_waiting` or `translate_select_language`
and whose age satisfies `now - enteredAt ≥ 300`, emitting exactly one
notification per evicted entry (in store order); sessions in
`scrape_waiting_count` and sessions younger than 300 are never evicted. -/
theorem claim1 (now : Int) (st : Store) (h : (st.map Prod.fst).Nodup) :
    sweepPass now st =
      (st.filter (fun e => !sweepEvict now e.2),
       (st.filter (fun e => sweepEvict now e.2)).map Prod.fst) := by
  have hsub : ((st.filter (fun e => sweepEvict now e.2)).map Prod.fst).Sublist
      (st.map Prod.fst) := (List.filter_sublist st).map Prod.fst
  have hn : ((st.filter (fun e => sweepEvict now e.2)).map Prod.fst).Nodup :=
    h.sublist hsub
  have hp : ∀ u ∈ (st.filter (fun e => sweepEvict now e.2)).map Prod.fst,
      (storeGet st u).isSome := by
    intro u hu
    rcases List.mem_map.mp hu with ⟨e, he, hee⟩
    rw [storeGet_isSome_iff]
    exact ⟨e, (List.mem_filter.mp he).1, hee⟩
  rw [sweepPass, collectTimedOut_eq, foldl_sweepRemove _ _ _ hn hp,
    foldl_storeDel_eq_filter, List.nil_append]
  congr 1
  apply List.filter_congr
  intro e he
  by_cases hev : sweepEvict now e.2
  · have hmem : e.1 ∈ (st.filter (fun x => sweepEvict now x.2)).map Prod.fst :=
      List.mem_map_of_mem _ (List.mem_filter.mpr ⟨he, hev⟩)
    simp [hev, hmem]
  · have hmem : e.1 ∉ (st.filter (fun x => sweepEvict now x.2)).map Prod.fst := by
      intro hc
      rcases List.mem_map.mp hc with ⟨y, hy, hye⟩
      have hy' : y = e :=
        List.inj_on_of_nodup_map h (List.mem_filter.mp hy).1 he hye
      exact hev (hy' ▸ (List.mem_filter.mp hy).2)
    simp [hev, hmem]

/-- Witness for claim1: a concrete three-entry store (stale translation
session, stale scrape session, fresh selection session) swept at time
1000 keeps exactly the scrape and fresh entries and notifies exactly the
stale translation user. -/
theorem claim1_witness :
    sweepPass 1000
      [("a", ⟨"translate_waiting", some "English", none, none, 0⟩),
       ("b", ⟨"scrape_waiting_count", none, some "u", some "facebook", 0⟩),
       ("c", ⟨"translate_select_language", none, none, none, 900⟩)] =
      ([("b", ⟨"scrape_waiting_count", none, some "u", some "facebook", 0⟩),
        ("c", ⟨"translate_select_language", none, none, none, 900⟩)], ["a"]) := by
  rw [claim1 1000 _ (by decide)]
  rfl

/-! ## Claim C2: normalizer error behavior -/

/-- Claim C2, counterexample: normalizing a Facebook field bag whose
`likes` is the non-numeric string "abc" raises (`int("abc")` →
`ValueError`, modelled as `none`) instead of defaulting the field to 0. -/
theorem claim2_counterexample :
    normalize_social_post_data [("likes", PyVal.vStr "abc")] "facebook" = none := by
  rfl

/-- The first truthy value of an alias chain, if any (amended-claim
reading of "first present alias value"). -/
def firstTruthyVal : List PyVal → Option PyVal
  | [] => none
  | v :: rest => if pyTruthy v then some v else firstTruthyVal rest

/-- The numeric field demanded by the amended claim: 0 when every alias
is absent or falsy, the integer coercion of the first truthy alias
otherwise — an error (none) when that coercion fails. -/
def specCount (vs : List PyVal) : Option Int :=
  match firstTruthyVal vs with
  | none => some 0
  | some v => pyIntOf v

theorem coerceCount_firstTruthy (vs : List PyVal) :
    coerceCount (firstTruthy vs (.vInt 0)) = specCount vs := by
  induction vs with
  | nil => rfl
  | cons v rest ih =>
    rw [firstTruthy, specCount, firstTruthyVal]
    by_cases h : pyTruthy v
    · simp [h, coerceCount]
    · simp only [h, Bool.false_eq_true, if_neg, ite_false]
      rw [ih, specCount]

theorem pyIntOf_firstTruthy (vs : List PyVal) :
    pyIntOf (firstTruthy vs (.vInt 0)) = specCount vs := by
  induction vs with
  | nil => rfl
  | cons v rest ih =>
    rw [firstTruthy, specCount, firstTruthyVal]
    by_cases h : pyTruthy v
    · simp [h]
    · simp only [h, Bool.false_eq_true, if_neg, ite_false]
      rw [ih, specCount]

/-- The Facebook likes alias chain of the source. -/
def fbLikesVals (bag : List (String × PyVal)) : List PyVal :=
  [pyGet bag "likes", pyGet bag "likesCount", pyGet bag "reactionsCount",
   pyGet (nestedDict bag "reactions") "count"]

/-- The Facebook comments alias chain of the source. -/
def fbCommentsVals (bag : List (String × PyVal)) : List PyVal :=
  [pyGet bag "comments", pyGet bag "commentsCount", pyGet bag "commentCount"]

/-- The Facebook shares alias chain of the source. -/
def fbSharesVals (bag : List (String × PyVal)) : List PyVal :=
  [pyGet bag "shares", pyGet bag "sharesCount", pyGet bag "shareCount"]

/-- The Threads numeric alias chains of the source. -/
def thLikesVals (bag : List (String × PyVal)) : List PyVal :=
  [pyGet bag "likeCount", pyGet bag "likesCount"]

def thCommentsVals (bag : List (String × PyVal)) : List PyVal :=
  [pyGet bag "replyCount", pyGet bag "commentsCount"]

def thSharesVals (bag : List (String × PyVal)) : List PyVal :=
  [pyGet bag "repostCount"]

/-- Claim C2, amended: each numeric field of a successful normalization
equals the integer coercion of the first truthy alias value (0 when all
aliases are absent or falsy); a truthy but non-numeric first alias makes
normalization raise (none) rather than default; an unrecognized platform
yields the all-default record without error. -/
theorem claim2 :
    (∀ bag p, normalize_social_post_data bag "facebook" = some p →
      specCount (fbLikesVals bag) = some p.likes ∧
      specCount (fbCommentsVals bag) = some p.comments ∧
      specCount (fbSharesVals bag) = some p.shares) ∧
    (∀ bag, specCount (fbLikesVals bag) = none →
      normalize_social_post_data bag "facebook" = none) ∧
    (∀ bag p, normalize_social_post_data bag "threads" = some p →
      specCount (thLikesVals bag) = some p.likes ∧
      specCount (thCommentsVals bag) = some p.comments ∧
      specCount (thSharesVals bag) = some p.shares) ∧
    (∀ platform bag, platform ≠ "facebook" → platform ≠ "threads" →
      normalize_social_post_data bag platform = some defaultPost) := by
  refine ⟨?_, ?_, ?_, ?_⟩
  · intro bag p h
    rw [normalize_social_post_data, if_pos rfl] at h
    dsimp only at h
    split at h
    · rename_i l c sh hl hc hs
      obtain rfl : _ = p := Option.some.inj h
      refine ⟨?_, ?_, ?_⟩
      · rw [← coerceCount_firstTruthy, fbLikesVals]; exact hl
      · rw [← coerceCount_firstTruthy, fbCommentsVals]; exact hc
      · rw [← coerceCount_firstTruthy, fbSharesVals]; exact hs
    · exact absurd h (by simp)
  · intro bag h
    rw [normalize_social_post_data, if_pos rfl]
    dsimp only
    rw [← coerceCount_firstTruthy, fbLikesVals] at h
    rw [h]
  · intro bag p h
    rw [normalize_social_post_data] at h
    rw [if_neg (by decide), if_pos rfl] at h
    dsimp only at h
    split at h
    · rename_i u l c sh hu hl hc hs
      obtain rfl : _ = p := Option.some.inj h
      refine ⟨?_, ?_, ?_⟩
      · rw [← pyIntOf_firstTruthy, thLikesVals]; exact hl
      · rw [← pyIntOf_firstTruthy, thCommentsVals]; exact hc
      · rw [← pyIntOf_firstTruthy, thSharesVals]; exact hs
    · exact absurd h (by simp)
  · intro platform bag h1 h2
    rw [normalize_social_post_data, if_neg h1, if_neg h2]

/-- Witness for claim2: the spec's concrete normalization scenario
`{"likes": "100", "comments": 50}` — the string is coerced, the absent
shares default to 0. -/
theorem claim2_witness :
    specCount (fbLikesVals [("likes", PyVal.vStr "100"), ("comments", PyVal.vInt 50)]) =
      some 100 ∧
    specCount (fbCommentsVals [("likes", PyVal.vStr "100"), ("comments", PyVal.vInt 50)]) =
      some 50 ∧
    specCount (fbSharesVals [("likes", PyVal.vStr "100"), ("comments", PyVal.vInt 50)]) =
      some 0 := by
  exact claim2.1 [("likes", PyVal.vStr "100"), ("comments", PyVal.vInt 50)]
    ⟨.vStr "未知", .vStr "", 100, 50, 0⟩ rfl

/-! ## Claim C4: keyword-field extraction -/

/-- The delimiter set asserted by claim C4: full-width comma, ideographic
comma, ASCII comma, middle dot (U+30FB), and bullet (U+2022). -/
def claimDelimC4 (c : Char) : Bool :=
  c = '，' || c = '、' || c = ',' || c = '・' || c = '•'

/-- Claim C4's keyword post-processing: split the section text on the
five delimiters, trim each piece, keep the nonempty pieces shorter than
the fixed bound 50. -/
def claimKeywordsC4 (cap : List Char) : List String :=
  (((List.splitOnP claimDelimC4 (pyStrip cap)).map pyStrip).filter
    (fun w => !w.isEmpty && decide (w.length < 50))).map String.mk

/-- Claim C4, counterexample: on the response "🔑 關鍵字：甲・乙" the
source keeps "甲・乙" as a single keyword — the middle dot is not in the
split set `[、,，]` — while the claim's five-delimiter split would give
["甲", "乙"]. -/
theorem claim4_counterexample :
    parse_summary_keywords "🔑 關鍵字：甲・乙" = ["甲・乙"] ∧
    (match kwSearch ['🔑', '💡'] ["關鍵字".toList, "關鍵資訊".toList] termSummary
        "🔑 關鍵字：甲・乙".toList with
     | none => []
     | some cap => claimKeywordsC4 cap) = ["甲", "乙"] := by
  exact ⟨rfl, rfl⟩

theorem splitKw_eq_splitOnP (l : List Char) :
    splitKw l = List.splitOnP kwDelim l := by
  induction l with
  | nil => rfl
  | cons c r ih =>
    rw [splitKw, List.splitOnP_cons]
    cases h : kwDelim c
    · simp only [h, Bool.false_eq_true, if_false, ih]
      rcases hsp : List.splitOnP kwDelim r with _ | ⟨s, ss⟩
      · exact absurd hsp (List.splitOnP_ne_nil _ r)
      · simp [List.modifyHead]
    · simp [h, ih]

/-- The keyword post-processing as stated by the amended claim: strip the
captured section, replace newlines by ideographic commas (webpage-summary
variant only), split on exactly the three delimiters ideographic comma,
ASCII comma and full-width comma — not on middle dots or bullets — trim
each piece and keep the nonempty pieces shorter than 50 characters. -/
def amendedKeywords (replaceNl : Bool) (cap : List Char) : List String :=
  let t := pyStrip cap
  let t2 := if replaceNl then t.map (fun c => if c = '\n' then '、' else c) else t
  (((List.splitOnP kwDelim t2).map pyStrip).filter
    (fun w => !w.isEmpty && decide (w.length < 50))).map String.mk

/-- Claim C4, amended: for every AI-response string, the keyword field of
each structured-response parser equals the label-anchored captured
section processed per `amendedKeywords` (three comma delimiters only),
and is empty when no keyword section is present. -/
theorem claim4 (s : String) :
    parse_summary_keywords s =
      (match kwSearch ['🔑', '💡'] ["關鍵字".toList, "關鍵資訊".toList] termSummary
          s.toList with
       | none => []
       | some cap => amendedKeywords true cap) ∧
    parse_social_keywords s =
      (match kwSearch ['🔑'] ["關鍵字".toList] termSocialKw s.toList with
       | none => []
       | some cap => amendedKeywords false cap) := by
  constructor
  · rcases hk : kwSearch ['🔑', '💡'] ["關鍵字".toList, "關鍵資訊".toList] termSummary
        s.toList with _ | cap
    · simp only [parse_summary_keywords, hk]
    · simp only [parse_summary_keywords, hk, amendedKeywords, keywordClean,
        splitKw_eq_splitOnP]
      rfl
  · rcases hk : kwSearch ['🔑'] ["關鍵字".toList] termSocialKw s.toList with _ | cap
    · simp only [parse_social_keywords, hk]
    · simp only [parse_social_keywords, hk, amendedKeywords, keywordClean,
        splitKw_eq_splitOnP]
      rfl

/-! ## Strip lemmas -/

theorem dropWhile_eq_self_of_head {α : Type} (p : α → Bool) (l : List α)
    (h : ∀ c, l.head? = some c → p c = false) : l.dropWhile p = l := by
  cases l with
  | nil => rfl
  | cons a r =>
    rw [List.dropWhile_cons, h a rfl]
    simp

theorem head?_dropWhile_false {α : Type} (p : α → Bool) (l : List α) :
    ∀ c, (l.dropWhile p).head? = some c → p c = false := by
  induction l with
  | nil => intro c h; simp at h
  | cons a r ih =>
    intro c h
    rw [List.dropWhile_cons] at h
    by_cases hp : p a
    · rw [if_pos hp] at h
      exact ih c h
    · rw [if_neg hp] at h
      injection h with h
      rw [← h]
      exact Bool.not_eq_true _ ▸ hp

theorem pyStrip_eq_self (l : List Char)
    (h1 : ∀ c, l.head? = some c → pySpace c = false)
    (h2 : ∀ c, l.getLast? = some c → pySpace c = false) : pyStrip l = l := by
  rw [pyStrip, dropWhile_eq_self_of_head _ _ h1,
    dropWhile_eq_self_of_head _ _ (fun c hc => h2 c (by rwa [List.head?_reverse] at hc)),
    List.reverse_reverse]

theorem pyStrip_getLast? (l : List Char) :
    ∀ c, (pyStrip l).getLast? = some c → pySpace c = false := by
  intro c h
  rw [pyStrip, List.getLast?_reverse] at h
  exact head?_dropWhile_false _ _ c h

theorem pyStrip_head? (l : List Char) :
    ∀ c, (pyStrip l).head? = some c → pySpace c = false := by
  intro c h
  have hsuffix : (((l.dropWhile pySpace).reverse.dropWhile pySpace)).IsSuffix
      (l.dropWhile pySpace).reverse := List.dropWhile_suffix pySpace
  have hpre : (pyStrip l).IsPrefix (l.dropWhile pySpace) := by
    have := List.reverse_prefix.mpr hsuffix
    rwa [List.reverse_reverse] at this
  obtain ⟨r, hr⟩ := hpre
  have : (l.dropWhile pySpace).head? = some c := by
    rw [← hr]
    cases hs : pyStrip l with
    | nil => rw [hs] at h; simp at h
    | cons a t => rw [hs] at h; simpa using h
  exact head?_dropWhile_false _ _ c this

theorem pyStrip_idem (l : List Char) : pyStrip (pyStrip l) = pyStrip l :=
  pyStrip_eq_self _ (pyStrip_head? l) (pyStrip_getLast? l)

theorem toList_strip (s : String) : (strip s).toList = pyStrip s.toList := rfl

/-! ## Head-character classification lemmas -/

theorem mk_ne_of_head_ne {t : List Char} {c : Char} (hc : t.head? = some c)
    {s : String} {d : Char} (hd : s.toList.head? = some d) (hne : c ≠ d) :
    String.mk t ≠ s := by
  intro h
  cases s with
  | mk data =>
    injection h with h
    rw [h] at hc
    rw [show String.toList { data := data } = data from rfl] at hd
    rw [hc] at hd
    exact hne (Option.some.inj hd)

theorem not_mem_cancel_of_head {t : List Char} {c : Char} (hc : t.head? = some c)
    (h1 : c ≠ '取') (h2 : c ≠ '離') (h3 : c ≠ '結') (h4 : c ≠ 'e') (h5 : c ≠ 'c') :
    String.mk t ∉ cancelKeywords := by
  intro hm
  simp only [cancelKeywords, List.mem_cons, List.not_mem_nil, or_false] at hm
  rcases hm with h | h | h | h | h
  · exact mk_ne_of_head_ne hc (show ("取消" : String).toList.head? = some '取' from rfl) h1 h
  · exact mk_ne_of_head_ne hc (show ("離開" : String).toList.head? = some '離' from rfl) h2 h
  · exact mk_ne_of_head_ne hc (show ("結束" : String).toList.head? = some '結' from rfl) h3 h
  · exact mk_ne_of_head_ne hc (show ("exit" : String).toList.head? = some 'e' from rfl) h4 h
  · exact mk_ne_of_head_ne hc (show ("cancel" : String).toList.head? = some 'c' from rfl) h5 h

theorem not_mem_trigger_of_head {t : List Char} {c : Char} (hc : t.head? = some c)
    (h1 : c ≠ '翻') : String.mk t ∉ triggerKeywords := by
  intro hm
  simp only [triggerKeywords, List.mem_cons, List.not_mem_nil, or_false] at hm
  rcases hm with h | h
  · exact mk_ne_of_head_ne hc (show ("翻譯" : String).toList.head? = some '翻' from rfl) h1 h
  · exact mk_ne_of_head_ne hc (show ("翻譯模式" : String).toList.head? = some '翻' from rfl) h1 h

theorem translateMatch_none_of_head {t : List Char} {c : Char} (hc : t.head? = some c)
    (h1 : c ≠ '翻') (h2 : c ≠ '請') (h3 : c ≠ '幫') : translateMatch t = none := by
  cases t with
  | nil => simp at hc
  | cons a r =>
    obtain rfl : a = c := by simpa using hc
    rw [translateMatch]
    rw [show ("幫我".toList : List Char) = ['幫', '我'] from rfl,
      show ("請".toList : List Char) = ['請'] from rfl,
      show ("請幫我".toList : List Char) = ['請', '幫', '我'] from rfl,
      show ("翻譯".toList : List Char) = ['翻', '譯'] from rfl]
    simp [tryOptsO, dropLit, h1, h2, h3]

theorem parse_translation_request_none {t : List Char} {c : Char}
    (hstrip : pyStrip t = t) (hc : t.head? = some c)
    (h1 : c ≠ '翻') (h2 : c ≠ '請') (h3 : c ≠ '幫') :
    parse_translation_request (String.mk t) = none := by
  rw [parse_translation_request,
    show (String.mk t).toList = t from rfl, hstrip,
    translateMatch_none_of_head hc h1 h2 h3]

theorem pyIsDigit_head {t : List Char} (h : pyIsDigit t = true) :
    ∃ c, t.head? = some c ∧ pyDigit c = true := by
  cases t with
  | nil => simp [pyIsDigit] at h
  | cons a r =>
    refine ⟨a, rfl, ?_⟩
    simp only [pyIsDigit, List.isEmpty_cons, Bool.not_false, Bool.true_and,
      List.all_cons, Bool.and_eq_true] at h
    exact h.1

theorem pyDigit_ne (c : Char) (d : Char) (h : pyDigit c = true) (hd : pyDigit d = false) :
    c ≠ d := by
  intro he
  rw [he, hd] at h
  exact Bool.false_ne_true h

theorem pyIsDigit_full {l : List Char} (h : pyIsDigit l = true) :
    pyIsDigitFull l = true := by
  simp only [pyIsDigit, Bool.and_eq_true, List.all_eq_true] at h
  simp only [pyIsDigitFull, Bool.and_eq_true, List.all_eq_true]
  exact ⟨h.1, fun c hc => by simp [pyDigitFull, h.2 c hc]⟩

theorem intOfDigitToken_ascii {l : List Char} (h : pyIsDigit l = true) :
    intOfDigitToken l = some (digitsToNat l) := by
  simp only [pyIsDigit, Bool.and_eq_true] at h
  rw [intOfDigitToken, if_pos h.2]

theorem urlMatchAt_none_of_head {t : List Char} {c : Char} (hc : t.head? = some c)
    (h : c ≠ 'h') : urlMatchAt t = none := by
  cases t with
  | nil => simp at hc
  | cons a r =>
    obtain rfl : a = c := by simpa using hc
    rw [urlMatchAt, dropScheme,
      show ("http".toList : List Char) = ['h', 't', 't', 'p'] from rfl]
    simp [dropLit, h]

theorem urlSearch_none_of_no_h {t : List Char} (h : ∀ c ∈ t, c ≠ 'h') :
    urlSearch t = none := by
  induction t with
  | nil => rfl
  | cons a r ih =>
    rw [urlSearch,
      urlMatchAt_none_of_head (show (a :: r).head? = some a from rfl) (h a (by simp))]
    exact ih (fun c hc => h c (List.mem_cons_of_mem _ hc))

/-! ## Per-block fall-through lemmas -/

theorem blockTranslateWaiting_absent {now : Int} {st : Store} {uid text : String}
    (h : storeGet st uid = none) : blockTranslateWaiting now st uid text = none := by
  rw [blockTranslateWaiting, h]

theorem blockTranslateWaiting_mode {now : Int} {st : Store} {uid text : String}
    {s : Session} (h : storeGet st uid = some s) (hm : s.mode ≠ "translate_waiting") :
    blockTranslateWaiting now st uid text = none := by
  rw [blockTranslateWaiting, h]
  simp [hm]

theorem blockSelectLanguage_absent {now : Int} {st : Store} {uid text : String}
    (h : storeGet st uid = none) : blockSelectLanguage now st uid text = none := by
  rw [blockSelectLanguage, h]

theorem blockSelectLanguage_mode {now : Int} {st : Store} {uid text : String}
    {s : Session} (h : storeGet st uid = some s)
    (hm : s.mode ≠ "translate_select_language") :
    blockSelectLanguage now st uid text = none := by
  rw [blockSelectLanguage, h]
  simp [hm]

theorem blockSelectLanguage_miss {now : Int} {st : Store} {uid text : String}
    {s : Session} (h : storeGet st uid = some s)
    (hl : langGet text = none) :
    blockSelectLanguage now st uid text = none := by
  have hf : LANGUAGE_MAP.find? (fun e => e.1 = text) = none := by
    rcases hfind : LANGUAGE_MAP.find? (fun e => e.1 = text) with _ | e
    · exact hfind
    · rw [langGet, hfind] at hl
      simp at hl
  rw [blockSelectLanguage, h]
  by_cases hm : s.mode = "translate_select_language"
  · by_cases hcan : text ∈ cancelKeywords <;> simp [hm, hl, hf, hcan]
  · simp [hm]

theorem blockEnterTranslate_not_trigger {now : Int} {st : Store} {uid text : String}
    (h : text ∉ triggerKeywords) : blockEnterTranslate now st uid text = none := by
  rw [blockEnterTranslate, if_neg h]

theorem blockCancel_not_cancel {st : Store} {uid text : String}
    (h : text ∉ cancelKeywords) : blockCancel st uid text = none := by
  rw [blockCancel, if_neg h]

theorem blockCancel_cancel {st : Store} {uid text : String}
    (h : text ∈ cancelKeywords) :
    blockCancel st uid text = some (.ackCancel, storeDel st uid) := by
  rw [blockCancel, if_pos h]

theorem blockDirectTranslate_none {st : Store} {text : String}
    (h : parse_translation_request text = none) : blockDirectTranslate st text = none := by
  rw [blockDirectTranslate, h]

theorem blockScrapeCount_absent {apify : Bool} {st : Store} {uid text : String}
    (h : storeGet st uid = none) : blockScrapeCount apify st uid text = none := by
  rw [blockScrapeCount, h]

theorem blockScrapeCount_mode {apify : Bool} {st : Store} {uid text : String}
    {s : Session} (h : storeGet st uid = some s)
    (hm : s.mode ≠ "scrape_waiting_count") :
    blockScrapeCount apify st uid text = none := by
  rw [blockScrapeCount, h]
  simp [hm]

theorem blockScrapeCount_digit {apify : Bool} {st : Store} {uid text : String}
    {s : Session} (h : storeGet st uid = some s)
    (hm : s.mode = "scrape_waiting_count") (hnc : text ∉ cancelKeywords)
    (hd : pyIsDigit text.toList = true) :
    blockScrapeCount apify st uid text =
      some (.reply (if apify then
              Action.scrape s.url s.platform (min (digitsToNat text.toList) 20)
             else Action.scrapeNotConfigured) (storeDel st uid)) := by
  rw [blockScrapeCount, h]
  dsimp only
  rw [if_pos hm, if_neg hnc, if_pos (pyIsDigit_full hd), intOfDigitToken_ascii hd]
  cases apify <;> rfl

theorem blockScrapeCount_crash_inv {apify : Bool} {st : Store} {uid text : String}
    {st2 : Store} (h : blockScrapeCount apify st uid text = some (.crash st2)) :
    st2 = st ∧ ∃ s, storeGet st uid = some s ∧ s.mode = "scrape_waiting_count" ∧
      text ∉ cancelKeywords ∧ pyIsDigitFull text.toList = true ∧
      intOfDigitToken text.toList = none := by
  rw [blockScrapeCount] at h
  rcases hg : storeGet st uid with _ | s <;> rw [hg] at h
  · exact absurd h (by simp)
  · dsimp only at h
    by_cases hm : s.mode = "scrape_waiting_count"
    · rw [if_pos hm] at h
      by_cases hc : text ∈ cancelKeywords
      · rw [if_pos hc] at h
        exact absurd h (by simp)
      · rw [if_neg hc] at h
        by_cases hd : pyIsDigitFull text.toList = true
        · rw [if_pos hd] at h
          rcases hi : intOfDigitToken text.toList with _ | n <;> rw [hi] at h
          · refine ⟨?_, s, rfl, hm, hc, hd, rfl⟩
            have h2 := Option.some.inj h
            injection h2 with h3
            exact h3.symm
          · dsimp only at h
            by_cases hap : (!apify) = true
            · rw [if_pos hap] at h
              exact absurd h (by simp)
            · rw [if_neg hap] at h
              exact absurd h (by simp)
        · rw [if_neg hd] at h
          exact absurd h (by simp)
    · rw [if_neg hm] at h
      exact absurd h (by simp)

theorem blockScrapeMulti_none {apify : Bool} {st : Store} {text : String}
    (h : scrapeMultiMatch text.toList = none) : blockScrapeMulti apify st text = none := by
  rw [blockScrapeMulti, h]

theorem blockUrl_none {apify : Bool} {now : Int} {st : Store} {uid text : String}
    (h : extract_url text = none) : blockUrl apify now st uid text = none := by
  rw [blockUrl, h]

theorem blockFreeText_some {st : Store} {text : String}
    (h : extract_url text = none) :
    blockFreeText st text = some (.summarizeFreeText text, st) := by
  rw [blockFreeText, h]

/-! ## Claim C6: router totality -/

/-- Claim C9: a cancel keyword from a user with no stored session leaves
the store unchanged (no entry created or removed) and emits the cancel
acknowledgment, without error. -/
theorem claim9 (apify : Bool) (now : Int) (st : Store) (uid text : String)
    (hidle : storeGet st uid = none) (hc : strip text ∈ cancelKeywords) :
    route apify now st uid text = (some Action.ackCancel, st) := by
  have htr : strip text ∉ triggerKeywords := by
    simp only [cancelKeywords, List.mem_cons, List.not_mem_nil, or_false] at hc
    rcases hc with h | h | h | h | h <;> rw [h] <;> decide
  rw [route]
  rw [blockTranslateWaiting_absent hidle, blockSelectLanguage_absent hidle,
    blockEnterTranslate_not_trigger htr, blockCancel_cancel hc,
    storeDel_of_absent st uid hidle]

/-- Witness for claim9: the concrete cancel keyword "取消" on the empty
store. -/
theorem claim9_witness :
    route false 7 [] "u" "取消" = (some Action.ackCancel, []) :=
  claim9 false 7 [] "u" "取消" rfl (by decide)

/-! ## Claim C10: numeric token always destroys the scrape session -/

/-- Claim C10: while a session is in scrape_waiting_count, a purely
numeric token deletes the session entry before the scraping collaborator
is consulted — for both values of the configuration flag the store holds
no entry for that user afterwards. -/
theorem claim10 (apify : Bool) (now : Int) (st : Store) (uid text : String) (s : Session)
    (hget : storeGet st uid = some s) (hmode : s.mode = "scrape_waiting_count")
    (hdig : pyIsDigit (strip text).toList = true) :
    storeGet (route apify now st uid text).2 uid = none := by
  obtain ⟨c, hc, hcd⟩ := pyIsDigit_head hdig
  have hmk : String.mk (strip text).toList = strip text := rfl
  have hcan : strip text ∉ cancelKeywords := by
    have h := not_mem_cancel_of_head hc (pyDigit_ne c '取' hcd (by decide))
      (pyDigit_ne c '離' hcd (by decide)) (pyDigit_ne c '結' hcd (by decide))
      (pyDigit_ne c 'e' hcd (by decide)) (pyDigit_ne c 'c' hcd (by decide))
    rwa [hmk] at h
  have htrig : strip text ∉ triggerKeywords := by
    have h := not_mem_trigger_of_head hc (pyDigit_ne c '翻' hcd (by decide))
    rwa [hmk] at h
  have hstrip : pyStrip (strip text).toList = (strip text).toList := by
    rw [toList_strip]
    exact pyStrip_idem _
  have hpt : parse_translation_request (strip text) = none := by
    have h := parse_translation_request_none hstrip hc
      (pyDigit_ne c '翻' hcd (by decide)) (pyDigit_ne c '請' hcd (by decide))
      (pyDigit_ne c '幫' hcd (by decide))
    rwa [hmk] at h
  rw [route]
  rw [blockTranslateWaiting_mode hget (by rw [hmode]; decide),
    blockSelectLanguage_mode hget (by rw [hmode]; decide),
    blockEnterTranslate_not_trigger htrig,
    blockCancel_not_cancel hcan,
    blockDirectTranslate_none hpt,
    blockScrapeCount_digit hget hmode hcan hdig]
  exact storeGet_del_self st uid

/-- Witness for claim10: submitting "999" with an unconfigured scraping
client still deletes the stored scrape session. -/
theorem claim10_witness :
    storeGet (route false 3
      [("u", ⟨"scrape_waiting_count", none, some "https://facebook.com/username",
              some "facebook", 0⟩)] "u" "999").2 "u" = none :=
  claim10 false 3 _ "u" "999" _ rfl rfl (by decide)

/-! ## Multi-scrape command lemmas -/

theorem dropLit_some {lit l r : List Char} (h : dropLit lit l = some r) :
    l = lit ++ r := by
  induction lit generalizing l with
  | nil =>
    simp only [dropLit, Option.some.injEq] at h
    simp [h]
  | cons c cs ih =>
    cases l with
    | nil => exact absurd h (by simp [dropLit])
    | cons d t =>
      rw [dropLit] at h
      by_cases hdc : d = c
      · rw [if_pos hdc] at h
        rw [List.cons_append, ← ih h, hdc]
      · rw [if_neg hdc] at h
        exact absurd h (by simp)

theorem scrapeMultiCore_cons_ne {a : Char} {r : List Char} (ha : a ≠ '爬') :
    scrapeMultiCore (a :: r) = none := by
  rw [scrapeMultiCore.eq_def]
  simp [ha]

theorem scrapeMultiCore_head {l : List Char} {y : List Char × List Char}
    (h : scrapeMultiCore l = some y) : l.head? = some '爬' := by
  cases l with
  | nil => exact absurd h (by simp [scrapeMultiCore])
  | cons a r =>
    by_cases ha : a = '爬'
    · rw [ha]
      rfl
    · rw [scrapeMultiCore_cons_ne ha] at h
      exact absurd h (by simp)

theorem scrapeMultiMatch_head {t : List Char} {x : List Char × List Char}
    (h : scrapeMultiMatch t = some x) :
    t.head? = some '爬' ∨ t.head? = some '幫' := by
  rw [scrapeMultiMatch] at h
  rcases hd : dropLit "幫我".toList t with _ | r <;> rw [hd] at h
  · left
    exact scrapeMultiCore_head h
  · right
    rw [dropLit_some hd]
    rfl

theorem translateMatch_none_of_multi {t : List Char} {x : List Char × List Char}
    (h : scrapeMultiMatch t = some x) : translateMatch t = none := by
  rcases hd : dropLit "幫我".toList t with _ | r
  · rw [scrapeMultiMatch, hd] at h
    exact translateMatch_none_of_head (scrapeMultiCore_head h)
      (by decide) (by decide) (by decide)
  · obtain rfl : t = '幫' :: '我' :: r := dropLit_some hd
    rw [scrapeMultiMatch, hd] at h
    dsimp only at h
    rcases hc : scrapeMultiCore r with _ | y
    · simp only [hc, scrapeMultiCore_cons_ne (show ('幫' : Char) ≠ '爬' by decide)] at h
      exact absurd h (by simp)
    · have hh := scrapeMultiCore_head hc
      cases r with
      | nil => simp at hh
      | cons b r2 =>
        obtain rfl : b = '爬' := by simpa using hh
        rw [translateMatch]
        rw [show ("幫我".toList : List Char) = ['幫', '我'] from rfl,
          show ("請".toList : List Char) = ['請'] from rfl,
          show ("請幫我".toList : List Char) = ['請', '幫', '我'] from rfl,
          show ("翻譯".toList : List Char) = ['翻', '譯'] from rfl]
        simp [tryOptsO, dropLit]

/-! ## Claim C8: scrape count clamping -/

/-- Claim C8: (1) an all-digit token n while in scrape_waiting_count (with
the scraper configured) emits scrape(url, platform, min(n, 20)) and
deletes the session; (2) a multi-item-scrape command with captured count n
and a recognized platform emits scrape with count min(n, 20); (3)
concretely, a page-root Facebook URL stores a scrape session and a
subsequent "999" yields count 20 with the session deleted. -/
theorem claim8 :
    (∀ (now : Int) (st : Store) (uid text : String) (s : Session),
      storeGet st uid = some s → s.mode = "scrape_waiting_count" →
      pyIsDigit (strip text).toList = true →
      route true now st uid text =
        (some (Action.scrape s.url s.platform (min (digitsToNat (strip text).toList) 20)),
         storeDel st uid)) ∧
    (∀ (now : Int) (st : Store) (uid text : String) (ds urlc : List Char) (pl ty : String),
      storeGet st uid = none →
      scrapeMultiMatch (strip text).toList = some (ds, urlc) →
      detect_social_platform (String.mk urlc) = (some pl, ty) →
      route true now st uid text =
        (some (Action.scrape (some (String.mk urlc)) (some pl) (min (digitsToNat ds) 20)),
         st)) ∧
    (route true 0 [] "u" "https://facebook.com/username" =
       (some Action.askPostCount,
        [("u", ⟨"scrape_waiting_count", none, some "https://facebook.com/username",
                some "facebook", 0⟩)]) ∧
     route true 1
        [("u", ⟨"scrape_waiting_count", none, some "https://facebook.com/username",
                some "facebook", 0⟩)] "u" "999" =
       (some (Action.scrape (some "https://facebook.com/username") (some "facebook") 20),
        [])) := by
  refine ⟨?_, ?_, ?_, ?_⟩
  · intro now st uid text s hget hmode hdig
    obtain ⟨c, hc, hcd⟩ := pyIsDigit_head hdig
    have hmk : String.mk (strip text).toList = strip text := rfl
    have hcan : strip text ∉ cancelKeywords := by
      have h := not_mem_cancel_of_head hc (pyDigit_ne c '取' hcd (by decide))
        (pyDigit_ne c '離' hcd (by decide)) (pyDigit_ne c '結' hcd (by decide))
        (pyDigit_ne c 'e' hcd (by decide)) (pyDigit_ne c 'c' hcd (by decide))
      rwa [hmk] at h
    have htrig : strip text ∉ triggerKeywords := by
      have h := not_mem_trigger_of_head hc (pyDigit_ne c '翻' hcd (by decide))
      rwa [hmk] at h
    have hstrip : pyStrip (strip text).toList = (strip text).toList := by
      rw [toList_strip]
      exact pyStrip_idem _
    have hpt : parse_translation_request (strip text) = none := by
      have h := parse_translation_request_none hstrip hc
        (pyDigit_ne c '翻' hcd (by decide)) (pyDigit_ne c '請' hcd (by decide))
        (pyDigit_ne c '幫' hcd (by decide))
      rwa [hmk] at h
    rw [route]
    rw [blockTranslateWaiting_mode hget (by rw [hmode]; decide),
      blockSelectLanguage_mode hget (by rw [hmode]; decide),
      blockEnterTranslate_not_trigger htrig,
      blockCancel_not_cancel hcan,
      blockDirectTranslate_none hpt,
      blockScrapeCount_digit hget hmode hcan hdig]
    rfl
  · intro now st uid text ds urlc pl ty hidle hmulti hdet
    have hhd := scrapeMultiMatch_head hmulti
    have hex : ∃ c, (strip text).toList.head? = some c ∧ (c = '爬' ∨ c = '幫') := by
      rcases hhd with h | h
      · exact ⟨'爬', h, Or.inl rfl⟩
      · exact ⟨'幫', h, Or.inr rfl⟩
    obtain ⟨c, hc, hcc⟩ := hex
    have hmk : String.mk (strip text).toList = strip text := rfl
    have hcan : strip text ∉ cancelKeywords := by
      have h := not_mem_cancel_of_head hc
        (by rcases hcc with rfl | rfl <;> decide) (by rcases hcc with rfl | rfl <;> decide)
        (by rcases hcc with rfl | rfl <;> decide) (by rcases hcc with rfl | rfl <;> decide)
        (by rcases hcc with rfl | rfl <;> decide)
      rwa [hmk] at h
    have htrig : strip text ∉ triggerKeywords := by
      have h := not_mem_trigger_of_head hc (by rcases hcc with rfl | rfl <;> decide)
      rwa [hmk] at h
    have hstrip : pyStrip (strip text).toList = (strip text).toList := by
      rw [toList_strip]
      exact pyStrip_idem _
    have hpt : parse_translation_request (strip text) = none := by
      rw [parse_translation_request,
        show (strip text).toList = pyStrip text.toList from rfl, pyStrip_idem,
        show pyStrip text.toList = (strip text).toList from rfl,
        translateMatch_none_of_multi hmulti]
    have h7 : blockScrapeMulti true st (strip text) =
        some (.scrape (some (String.mk urlc)) (some pl) (min (digitsToNat ds) 20), st) := by
      rw [blockScrapeMulti, hmulti]
      simp [hdet]
    rw [route]
    rw [blockTranslateWaiting_absent hidle, blockSelectLanguage_absent hidle,
      blockEnterTranslate_not_trigger htrig,
      blockCancel_not_cancel hcan,
      blockDirectTranslate_none hpt,
      blockScrapeCount_absent hidle, h7]
  · rfl
  · rfl

/-- Witness for claim8: part (1) applied to the concrete store holding a
scrape session for user "u" and the token "999". -/
theorem claim8_witness :
    route true 1
      [("u", ⟨"scrape_waiting_count", none, some "https://facebook.com/username",
              some "facebook", 0⟩)] "u" "999" =
      (some (Action.scrape (some "https://facebook.com/username") (some "facebook")
        (min (digitsToNat (strip "999").toList) 20)),
       storeDel [("u", ⟨"scrape_waiting_count", none,
          some "https://facebook.com/username", some "facebook", 0⟩)] "u") :=
  claim8.1 1
    [("u", ⟨"scrape_waiting_count", none, some "https://facebook.com/username",
            some "facebook", 0⟩)] "u" "999"
    ⟨"scrape_waiting_count", none, some "https://facebook.com/username",
     some "facebook", 0⟩ rfl rfl (by decide)

/-! ## Claim C3: lexicon miss while choosing a language -/

/-- A language-selection session used by the claim C3 counterexample. -/
def selSession : Session := ⟨"translate_select_language", none, none, none, 0⟩

/-- Claim C3, counterexample: "hello" is neither a Lexicon label nor a
cancel keyword, yet routing it in AwaitingLanguageChoice emits a
free-text-summary action (the handler falls through to the stateless
rules) instead of emitting no action at all; the session entry itself is
unchanged. -/
theorem claim3_counterexample :
    langGet "hello" = none ∧ "hello" ∉ cancelKeywords ∧
    route false 5 [("u", selSession)] "u" "hello" =
      (some (Action.summarizeFreeText "hello"), [("u", selSession)]) := by
  refine ⟨rfl, by decide, rfl⟩

/-- Claim C3, amended: for a message that is neither a Lexicon label, nor
a cancel keyword, nor a translation-trigger keyword, and contains no URL,
routing in AwaitingLanguageChoice leaves the session entry unchanged
(same mode, payload and enteredAt) but does emit an action — the message
falls through to the stateless rules (direct-translation command,
scrape command, or free-text summary) instead of being silently
dropped. -/
theorem claim3 (apify : Bool) (now : Int) (st : Store) (uid text : String) (s : Session)
    (hget : storeGet st uid = some s) (hmode : s.mode = "translate_select_language")
    (hlang : langGet (strip text) = none) (hcan : strip text ∉ cancelKeywords)
    (htrig : strip text ∉ triggerKeywords) (hurl : extract_url (strip text) = none) :
    storeGet (route apify now st uid text).2 uid = some s ∧
    ((route apify now st uid text).1).isSome = true := by
  rw [route]
  rw [blockTranslateWaiting_mode hget (by rw [hmode]; decide),
    blockSelectLanguage_miss hget hlang,
    blockEnterTranslate_not_trigger htrig,
    blockCancel_not_cancel hcan]
  rcases hp : parse_translation_request (strip text) with _ | ⟨lang, body⟩
  · rw [blockDirectTranslate_none hp,
      blockScrapeCount_mode hget (by rw [hmode]; decide)]
    rcases hm : scrapeMultiMatch (strip text).toList with _ | ⟨ds, urlc⟩
    · rw [blockScrapeMulti_none hm, blockUrl_none hurl, blockFreeText_some hurl]
      exact ⟨hget, rfl⟩
    · have h7 : ∃ a, blockScrapeMulti apify st (strip text) = some (a, st) := by
        cases hap : apify
        · exact ⟨.scrapeNotConfigured, by rw [blockScrapeMulti, hm]; rfl⟩
        · rcases hd2 : detect_social_platform (String.mk urlc) with ⟨_ | pl, ty⟩
          · exact ⟨.unsupportedUrl, by rw [blockScrapeMulti, hm]; simp [hd2]⟩
          · exact ⟨.scrape (some (String.mk urlc)) (some pl)
              (min (digitsToNat ds) 20), by rw [blockScrapeMulti, hm]; simp [hd2]⟩
      obtain ⟨a, h7⟩ := h7
      rw [h7]
      exact ⟨hget, rfl⟩
  · have h5 : blockDirectTranslate st (strip text) =
        some (.translateDirect lang body, st) := by
      rw [blockDirectTranslate, hp]
    rw [h5]
    exact ⟨hget, rfl⟩

/-- Witness for claim3: the amended claim instantiated at the concrete
language-selection session and the message "hello". -/
theorem claim3_witness :
    storeGet (route false 5 [("u", selSession)] "u" "hello").2 "u" = some selSession ∧
    ((route false 5 [("u", selSession)] "u" "hello").1).isSome = true :=
  claim3 false 5 [("u", selSession)] "u" "hello" selSession rfl rfl rfl
    (by decide) (by decide) rfl

/-! ## Claim C5: lexicon round-trip through the translation command -/

/-- The separator class `[：:\s]` of TRANSLATE_PATTERN. -/
def sepCharB (c : Char) : Bool := c = '：' || c = ':' || pySpace c

theorem sepTail_cons_none {c : Char} (r : List Char)
    (h1 : c ≠ '：') (h2 : c ≠ ':') (h3 : pySpace c = false) :
    sepTail (c :: r) = none := by
  rw [sepTail, List.takeWhile_cons pySpace c r, h3]
  simp only [Bool.false_eq_true, if_false, List.length_nil]
  rw [sepTailFrom, sepAttempt, List.drop_zero]
  simp [h1, h2, h3]

theorem innerTail_eq {bs : List Char} {b : Char} (hb : bs.head? = some b)
    (hbw : pySpace b = false) : innerTail bs = some bs := by
  have hd : bs.dropWhile pySpace = bs :=
    dropWhile_eq_self_of_head _ _ (fun c hc => by
      rw [hb] at hc
      injection hc with hc
      rw [← hc]
      exact hbw)
  rw [innerTail, hd]
  cases bs with
  | nil => simp at hb
  | cons x xs => simp

theorem sepTail_colon {bs : List Char} {b : Char} (hb : bs.head? = some b)
    (hbw : pySpace b = false) : sepTail ('：' :: bs) = some bs := by
  rw [sepTail, List.takeWhile_cons pySpace '：' bs,
    show pySpace '：' = false from by decide]
  simp only [Bool.false_eq_true, if_false, List.length_nil]
  rw [sepTailFrom, sepAttempt, List.drop_zero]
  exact innerTail_eq hb hbw

theorem lazyScan_through (bs : List Char) (b : Char) (hb : bs.head? = some b)
    (hbw : pySpace b = false) :
    ∀ (cs acc : List Char), cs ≠ [] → (∀ c ∈ cs, sepCharB c = false) →
      lazyScan acc (cs ++ '：' :: bs) = some (acc ++ cs, bs) := by
  intro cs
  induction cs with
  | nil => intro acc h _; exact absurd rfl h
  | cons c cs' ih =>
    intro acc _ hsep
    rw [List.cons_append, lazyScan]
    cases cs' with
    | nil =>
      rw [List.nil_append, sepTail_colon hb hbw]
    | cons c2 cs'' =>
      have h2 := hsep c2 (by simp)
      simp only [sepCharB, Bool.or_eq_false_iff, decide_eq_false_iff_not] at h2
      rw [List.cons_append, sepTail_cons_none _ h2.1.1 h2.1.2 h2.2]
      have := ih (acc ++ [c]) (by simp) (fun x hx => hsep x (List.mem_cons_of_mem _ hx))
      simpa using this

theorem afterFanyi_eq (cs bs : List Char) (b : Char) (hcs : cs ≠ [])
    (hsep : ∀ c ∈ cs, sepCharB c = false) (hb : bs.head? = some b)
    (hbw : pySpace b = false) :
    afterFanyi ('成' :: (cs ++ '：' :: bs)) = some (cs, bs) := by
  rw [afterFanyi, if_pos rfl, lazyScan_through bs b hb hbw cs [] hcs hsep]
  simp

theorem tryOptsO_all_fail {α : Type} (opts : List (List Char)) (k : List Char → Option α)
    (l : List Char) (h : ∀ o ∈ opts, dropLit o l = none) :
    tryOptsO opts k l = k l := by
  induction opts with
  | nil => rfl
  | cons o rest ih =>
    rw [tryOptsO, h o (by simp)]
    exact ih (fun o' ho' => h o' (List.mem_cons_of_mem _ ho'))

theorem translateMatch_cmd (cs bs : List Char) (b : Char) (hcs : cs ≠ [])
    (hsep : ∀ c ∈ cs, sepCharB c = false) (hb : bs.head? = some b)
    (hbw : pySpace b = false) :
    translateMatch ('翻' :: '譯' :: '成' :: (cs ++ '：' :: bs)) = some (cs, bs) := by
  rw [translateMatch, tryOptsO_all_fail _ _ _ ?_]
  · rw [show dropLit "翻譯".toList ('翻' :: '譯' :: '成' :: (cs ++ '：' :: bs)) =
        some ('成' :: (cs ++ '：' :: bs)) from rfl]
    exact afterFanyi_eq cs bs b hcs hsep hb hbw
  · intro o ho
    simp only [List.mem_cons, List.not_mem_nil, or_false] at ho
    rcases ho with rfl | rfl | rfl
    · rfl
    · rfl
    · rfl

/-- The per-entry facts about the lexicon needed by claim C5: every label
is nonempty, contains no separator character of TRANSLATE_PATTERN, and
looks up to its own code (keys are unambiguous). -/
theorem LANGUAGE_MAP_entry_facts :
    ∀ lc ∈ LANGUAGE_MAP, lc.1.toList ≠ [] ∧
      (∀ c ∈ lc.1.toList, sepCharB c = false) ∧ langGet lc.1 = some lc.2 := by
  decide

/-- Claim C5: for every (label, code) pair of the Lexicon and every
nonempty body with no leading or trailing whitespace, parsing the direct
translation command `翻譯成` + label + `：` + body yields exactly the
target code and the body unchanged. -/
theorem claim5 (lc : String × String) (hmem : lc ∈ LANGUAGE_MAP) (body : String)
    (hne : body.toList ≠ [])
    (h1 : ∀ c, body.toList.head? = some c → pySpace c = false)
    (h2 : ∀ c, body.toList.getLast? = some c → pySpace c = false) :
    parse_translation_request ("翻譯成" ++ lc.1 ++ "：" ++ body) = some (lc.2, body) := by
  obtain ⟨hl1, hl2, hl3⟩ := LANGUAGE_MAP_entry_facts lc hmem
  have htl : ("翻譯成" ++ lc.1 ++ "：" ++ body).toList =
      '翻' :: '譯' :: '成' :: (lc.1.toList ++ '：' :: body.toList) := by
    simp [String.toList, String.data_append]
  obtain ⟨b, hb⟩ : ∃ b, body.toList.head? = some b := by
    cases hh : body.toList.head? with
    | none => exact absurd (List.head?_eq_none_iff.mp hh) hne
    | some x => exact ⟨x, rfl⟩
  have hbw : pySpace b = false := h1 b hb
  have hsplit : '翻' :: '譯' :: '成' :: (lc.1.toList ++ '：' :: body.toList) =
      ('翻' :: '譯' :: '成' :: (lc.1.toList ++ ['：'])) ++ body.toList := by
    simp
  have hstrip : pyStrip (("翻譯成" ++ lc.1 ++ "：" ++ body).toList) =
      ("翻譯成" ++ lc.1 ++ "：" ++ body).toList := by
    apply pyStrip_eq_self
    · intro c hc
      rw [htl] at hc
      injection hc with hc
      rw [← hc]
      decide
    · intro c hc
      rw [htl, hsplit, List.getLast?_append_of_ne_nil _ hne] at hc
      exact h2 c hc
  have hstriplabel : pyStrip lc.1.toList = lc.1.toList := by
    apply pyStrip_eq_self
    · intro c hc
      have hm := hl2 c (List.mem_of_mem_head? hc)
      simp only [sepCharB, Bool.or_eq_false_iff, decide_eq_false_iff_not] at hm
      exact hm.2
    · intro c hc
      have hm := hl2 c (List.mem_of_mem_getLast? hc)
      simp only [sepCharB, Bool.or_eq_false_iff, decide_eq_false_iff_not] at hm
      exact hm.2
  have hstripbody : pyStrip body.toList = body.toList := pyStrip_eq_self _ h1 h2
  rw [parse_translation_request, hstrip, htl,
    translateMatch_cmd lc.1.toList body.toList b hl1 hl2 hb hbw]
  dsimp only
  rw [hstriplabel, hstripbody,
    show String.mk lc.1.toList = lc.1 from rfl,
    show String.mk body.toList = body from rfl, hl3]

/-- Witness for claim5: the lexicon entry (英文, English) with body
"hello world". -/
theorem claim5_witness :
    parse_translation_request ("翻譯成" ++ "英文" ++ "：" ++ "hello world") =
      some ("English", "hello world") :=
  claim5 ("英文", "English") (by decide) "hello world" (by decide)
    (fun c hc => by injection hc with hc; rw [← hc]; decide)
    (fun c hc => by
      rw [show ("hello world" : String).toList.getLast? = some 'd' from rfl] at hc
      injection hc with hc
      rw [← hc]
      decide)

/-! ## Claim C7: the store invariant -/

theorem storeSet_mem {st : Store} {u : String} {s : Session} {e : String × Session}
    (h : e ∈ storeSet st u s) : e = (u, s) ∨ e ∈ st := by
  induction st with
  | nil => simpa [storeSet] using h
  | cons f rest ih =>
    rw [storeSet] at h
    by_cases hf : f.1 = u
    · rw [if_pos hf] at h
      rcases List.mem_cons.mp h with rfl | h2
      · exact Or.inl rfl
      · exact Or.inr (List.mem_cons_of_mem _ h2)
    · rw [if_neg hf] at h
      rcases List.mem_cons.mp h with rfl | h2
      · exact Or.inr (List.mem_cons_self _ _)
      · rcases ih h2 with h3 | h3
        · exact Or.inl h3
        · exact Or.inr (List.mem_cons_of_mem _ h3)

theorem storeSet_keys_mem {st : Store} {u k : String} {s : Session}
    (h : k ∈ (storeSet st u s).map Prod.fst) : k = u ∨ k ∈ st.map Prod.fst := by
  rcases List.mem_map.mp h with ⟨e, he, hek⟩
  subst hek
  rcases storeSet_mem he with rfl | h2
  · exact Or.inl rfl
  · exact Or.inr (List.mem_map_of_mem _ h2)

theorem storeSet_keys_nodup {st : Store} {u : String} {s : Session}
    (h : (st.map Prod.fst).Nodup) : ((storeSet st u s).map Prod.fst).Nodup := by
  induction st with
  | nil => simp [storeSet]
  | cons f rest ih =>
    rw [storeSet]
    by_cases hf : f.1 = u
    · rw [if_pos hf]
      simp only [List.map_cons] at h ⊢
      rwa [hf] at h
    · rw [if_neg hf]
      simp only [List.map_cons, List.nodup_cons] at h ⊢
      refine ⟨?_, ih h.2⟩
      intro hmem
      rcases storeSet_keys_mem hmem with h3 | h3
      · exact hf h3
      · exact h.1 h3

theorem storeInv_set {st : Store} {u : String} {s : Session}
    (h : storeInv st) (hm : goodMode s.mode) : storeInv (storeSet st u s) := by
  refine ⟨storeSet_keys_nodup h.1, ?_⟩
  intro e he
  rcases storeSet_mem he with rfl | h2
  · exact hm
  · exact h.2 e h2

theorem storeInv_sublist {st st' : Store} (hsub : st'.Sublist st) (h : storeInv st) :
    storeInv st' :=
  ⟨h.1.sublist (hsub.map Prod.fst), fun e he => h.2 e (hsub.subset he)⟩

theorem storeInv_del {st : Store} {u : String} (h : storeInv st) :
    storeInv (storeDel st u) :=
  storeInv_sublist (List.filter_sublist st) h

theorem sweepRemove_sublist (acc : Store × List String) (uid : String) :
    ((sweepRemove acc uid).1).Sublist acc.1 := by
  rw [sweepRemove]
  by_cases h : (storeGet acc.1 uid).isSome
  · rw [if_pos h]
    exact List.filter_sublist _
  · rw [if_neg h]

theorem foldl_sweepRemove_sublist (us : List String) (acc : Store × List String) :
    ((us.foldl sweepRemove acc).1).Sublist acc.1 := by
  induction us generalizing acc with
  | nil => exact List.Sublist.refl _
  | cons u us ih => exact (ih (sweepRemove acc u)).trans (sweepRemove_sublist acc u)

theorem sweepPass_sublist (now : Int) (st : Store) : ((sweepPass now st).1).Sublist st :=
  foldl_sweepRemove_sublist _ (st, [])

theorem blockTranslateWaiting_inv {now : Int} {st : Store} {uid text : String}
    {a : Action} {st2 : Store} (hinv : storeInv st)
    (h : blockTranslateWaiting now st uid text = some (a, st2)) : storeInv st2 := by
  rw [blockTranslateWaiting] at h
  rcases hg : storeGet st uid with _ | s <;> rw [hg] at h
  · exact absurd h (by simp)
  · dsimp only at h
    by_cases hm : s.mode = "translate_waiting"
    · rw [if_pos hm] at h
      by_cases hc : text ∈ cancelKeywords
      · rw [if_pos hc] at h
        obtain rfl := congrArg Prod.snd (Option.some.inj h)
        exact storeInv_del hinv
      · rw [if_neg hc] at h
        by_cases hs : text ∈ switchLangKeywords
        · rw [if_pos hs] at h
          obtain rfl := congrArg Prod.snd (Option.some.inj h)
          exact storeInv_set hinv (Or.inr (Or.inl rfl))
        · rw [if_neg hs] at h
          obtain rfl := congrArg Prod.snd (Option.some.inj h)
          exact storeInv_set hinv (Or.inl hm)
    · rw [if_neg hm] at h
      exact absurd h (by simp)

theorem blockSelectLanguage_inv {now : Int} {st : Store} {uid text : String}
    {a : Action} {st2 : Store} (hinv : storeInv st)
    (h : blockSelectLanguage now st uid text = some (a, st2)) : storeInv st2 := by
  rw [blockSelectLanguage] at h
  rcases hg : storeGet st uid with _ | s <;> rw [hg] at h
  · exact absurd h (by simp)
  · dsimp only at h
    by_cases hm : s.mode = "translate_select_language"
    · rw [if_pos hm] at h
      rcases hl : langGet text with _ | code <;> rw [hl] at h
      · by_cases hc : text ∈ cancelKeywords
        · rw [if_pos hc] at h
          exact absurd h (by simp)
        · rw [if_neg hc] at h
          rcases hf : LANGUAGE_MAP.find? (fun e => e.1 = text) with _ | e <;> rw [hf] at h
          · exact absurd h (by simp)
          · obtain rfl := congrArg Prod.snd (Option.some.inj h)
            exact storeInv_set hinv (Or.inl rfl)
      · obtain rfl := congrArg Prod.snd (Option.some.inj h)
        exact storeInv_set hinv (Or.inl rfl)
    · rw [if_neg hm] at h
      exact absurd h (by simp)

theorem blockEnterTranslate_inv {now : Int} {st : Store} {uid text : String}
    {a : Action} {st2 : Store} (hinv : storeInv st)
    (h : blockEnterTranslate now st uid text = some (a, st2)) : storeInv st2 := by
  rw [blockEnterTranslate] at h
  by_cases ht : text ∈ triggerKeywords
  · rw [if_pos ht] at h
    obtain rfl := congrArg Prod.snd (Option.some.inj h)
    exact storeInv_set hinv (Or.inr (Or.inl rfl))
  · rw [if_neg ht] at h
    exact absurd h (by simp)

theorem blockCancel_inv {st : Store} {uid text : String}
    {a : Action} {st2 : Store} (hinv : storeInv st)
    (h : blockCancel st uid text = some (a, st2)) : storeInv st2 := by
  rw [blockCancel] at h
  by_cases hc : text ∈ cancelKeywords
  · rw [if_pos hc] at h
    obtain rfl := congrArg Prod.snd (Option.some.inj h)
    exact storeInv_del hinv
  · rw [if_neg hc] at h
    exact absurd h (by simp)

theorem blockDirectTranslate_inv {st : Store} {text : String}
    {a : Action} {st2 : Store} (hinv : storeInv st)
    (h : blockDirectTranslate st text = some (a, st2)) : storeInv st2 := by
  rw [blockDirectTranslate] at h
  rcases hp : parse_translation_request text with _ | ⟨lang, body⟩ <;> rw [hp] at h
  · exact absurd h (by simp)
  · obtain rfl := congrArg Prod.snd (Option.some.inj h)
    exact hinv

theorem blockScrapeCount_inv {apify : Bool} {st : Store} {uid text : String}
    {a : Action} {st2 : Store} (hinv : storeInv st)
    (h : blockScrapeCount apify st uid text = some (.reply a st2)) : storeInv st2 := by
  rw [blockScrapeCount] at h
  rcases hg : storeGet st uid with _ | s <;> rw [hg] at h
  · exact absurd h (by simp)
  · dsimp only at h
    by_cases hm : s.mode = "scrape_waiting_count"
    · rw [if_pos hm] at h
      by_cases hc : text ∈ cancelKeywords
      · rw [if_pos hc] at h
        have h2 := Option.some.inj h
        injection h2 with ha hb
        rw [← hb]
        exact storeInv_del hinv
      · rw [if_neg hc] at h
        by_cases hd : pyIsDigitFull text.toList = true
        · rw [if_pos hd] at h
          rcases hi : intOfDigitToken text.toList with _ | n <;> rw [hi] at h
          · exact absurd h (by simp)
          · dsimp only at h
            cases apify with
            | false =>
              rw [show (!false) = true from rfl, if_pos rfl] at h
              have h2 := Option.some.inj h
              injection h2 with ha hb
              rw [← hb]
              exact storeInv_del hinv
            | true =>
              rw [show (!true) = false from rfl] at h
              rw [if_neg (by simp)] at h
              have h2 := Option.some.inj h
              injection h2 with ha hb
              rw [← hb]
              exact storeInv_del hinv
        · rw [if_neg hd] at h
          exact absurd h (by simp)
    · rw [if_neg hm] at h
      exact absurd h (by simp)

theorem blockScrapeMulti_inv {apify : Bool} {st : Store} {text : String}
    {a : Action} {st2 : Store} (hinv : storeInv st)
    (h : blockScrapeMulti apify st text = some (a, st2)) : storeInv st2 := by
  rw [blockScrapeMulti] at h
  rcases hm : scrapeMultiMatch text.toList with _ | ⟨ds, urlc⟩ <;> rw [hm] at h
  · exact absurd h (by simp)
  · dsimp only at h
    by_cases hap : (!apify) = true
    · rw [if_pos hap] at h
      obtain rfl := congrArg Prod.snd (Option.some.inj h)
      exact hinv
    · rw [if_neg hap] at h
      rcases hd : detect_social_platform (String.mk urlc) with ⟨_ | pl, ty⟩ <;>
        rw [hd] at h <;> dsimp only at h
      · obtain rfl := congrArg Prod.snd (Option.some.inj h)
        exact hinv
      · obtain rfl := congrArg Prod.snd (Option.some.inj h)
        exact hinv

theorem blockUrl_inv {apify : Bool} {now : Int} {st : Store} {uid text : String}
    {a : Action} {st2 : Store} (hinv : storeInv st)
    (h : blockUrl apify now st uid text = some (a, st2)) : storeInv st2 := by
  rw [blockUrl] at h
  rcases hu : extract_url text with _ | url <;> rw [hu] at h
  · exact absurd h (by simp)
  · dsimp only at h
    rcases hd : detect_social_platform url with ⟨_ | pl, ty⟩ <;> rw [hd] at h <;>
      dsimp only at h
    · by_cases hg : isGoogleMapsUrl url = true
      · rw [if_pos hg] at h
        obtain rfl := congrArg Prod.snd (Option.some.inj h)
        exact hinv
      · rw [if_neg hg] at h
        obtain rfl := congrArg Prod.snd (Option.some.inj h)
        exact hinv
    · by_cases hap : (!apify) = true
      · rw [if_pos hap] at h
        obtain rfl := congrArg Prod.snd (Option.some.inj h)
        exact hinv
      · rw [if_neg hap] at h
        by_cases hty : ty = "page"
        · rw [if_pos hty] at h
          obtain rfl := congrArg Prod.snd (Option.some.inj h)
          exact storeInv_set hinv (Or.inr (Or.inr rfl))
        · rw [if_neg hty] at h
          obtain rfl := congrArg Prod.snd (Option.some.inj h)
          exact hinv

theorem route_inv {apify : Bool} {now : Int} {st : Store} {uid text : String}
    (hinv : storeInv st) : storeInv (route apify now st uid text).2 := by
  rw [route]
  rcases h1 : blockTranslateWaiting now st uid (strip text) with _ | ⟨a, s2⟩ <;>
    simp only [h1]
  case _ =>
    rcases h2 : blockSelectLanguage now st uid (strip text) with _ | ⟨a, s2⟩ <;>
      simp only [h2]
    case _ =>
      rcases h3 : blockEnterTranslate now st uid (strip text) with _ | ⟨a, s2⟩ <;>
        simp only [h3]
      case _ =>
        rcases h4 : blockCancel st uid (strip text) with _ | ⟨a, s2⟩ <;>
          simp only [h4]
        case _ =>
          rcases h5 : blockDirectTranslate st (strip text) with _ | ⟨a, s2⟩ <;>
            simp only [h5]
          case _ =>
            rcases h6 : blockScrapeCount apify st uid (strip text) with _ | o
            · simp only [h6]
              rcases h7 : blockScrapeMulti apify st (strip text) with _ | ⟨a, s2⟩ <;>
                simp only [h7]
              case _ =>
                rcases h8 : blockUrl apify now st uid (strip text) with _ | ⟨a, s2⟩ <;>
                  simp only [h8]
                case _ =>
                  rcases hx : extract_url (strip text) with _ | u
                  · simp only [blockFreeText_some hx]
                    exact hinv
                  · rw [blockUrl, hx] at h8
                    simp at h8
                case _ => exact blockUrl_inv hinv h8
              case _ => exact blockScrapeMulti_inv hinv h7
            · rcases o with ⟨a, s2⟩ | ⟨s2⟩
              · exact blockScrapeCount_inv hinv h6
              · obtain ⟨h9, -⟩ := blockScrapeCount_crash_inv h6
                rw [h9]
                exact hinv
          case _ => exact blockDirectTranslate_inv hinv h5
        case _ => exact blockCancel_inv hinv h4
      case _ => exact blockEnterTranslate_inv hinv h3
    case _ => exact blockSelectLanguage_inv hinv h2
  case _ => exact blockTranslateWaiting_inv hinv h1

/-- Claim C7: in every reachable state of the session store, keys are
unique (at most one session per user) and every stored entry's mode is
one of the three waiting modes — an Idle-mode session is never stored:
transitions that reach Idle delete the entry instead. -/
theorem claim7 (st : Store) (h : Reachable st) : storeInv st := by
  induction h with
  | init => exact ⟨List.nodup_nil, fun e he => absurd he (List.not_mem_nil e)⟩
  | msg apify now uid text hr ih => exact route_inv ih
  | sweep now hr ih => exact storeInv_sublist (sweepPass_sublist _ _) ih

/-- Witness for claim7: the invariant holds of the store reached by
routing the trigger keyword from the empty store. -/
theorem claim7_witness : storeInv ((route false 0 [] "u" "翻譯").2) :=
  claim7 _ (Reachable.msg false 0 "u" "翻譯" Reachable.init)

end EchoBot
